import Mathlib

/-!
Verification development for the OMTS template pagination and cell-filling
engine (`src/app/excel_generator.py`, `src/app/models.py`, GUI pin logic in
`src/app/gui/changes_table_widget.py`).

The Python source is shallowly embedded: dataclasses become structures,
floats become rationals, spreadsheet cells become an explicit content map
`Nat → Nat → Option CellVal`, and the imperative loops become folds or
fuelled recursions.  Text operations that the source performs with `re.sub`,
`str.lower`/`str.upper` and substring search on Cyrillic text are threaded
through an explicit `TextOps` record of string functions, since the byte-level
behaviour of those library routines is irrelevant to every property proved
here.  The result of the table-header text scan
(`_find_table_header_row`) is likewise carried as sheet data (`headerRow`),
because the generator never writes the marker phrases it scans for.
-/

namespace OMTS

/-- A spreadsheet cell value: the generator writes strings, numbers
(material norms) and one date (the implementation date). -/
inductive CellVal where
  | str (s : String)
  | num (q : ℚ)
  | date (y m d : Nat)
deriving DecidableEq

/-- `app/models.py` `CatalogEntry` (the fields the generator reads). -/
structure CatalogEntry where
  part : String
  workshop : String
  role : String
  before_name : String
  unit : String
  norm : ℚ
deriving DecidableEq

/-- `app/models.py` `MaterialChange`. -/
structure MaterialChange where
  catalog_entry : CatalogEntry
  is_changed : Bool
  after_name : Option String
  after_unit : Option String
  after_norm : Option ℚ
deriving DecidableEq

/-- `app/models.py` `PartChanges`. -/
structure PartChanges where
  part : String
  materials : List MaterialChange
  additional_page_number : Option Nat
deriving DecidableEq

/-- A calendar date as carried by `DocumentData.implementation_date`. -/
structure PyDate where
  year : Nat
  month : Nat
  day : Nat
deriving DecidableEq

/-- `app/models.py` `DocumentData` (header fields plus the ordered groups). -/
structure DocumentData where
  document_number : Option Nat
  implementation_date : Option PyDate
  validity_period : Option String
  products : List String
  reason : String
  tko_conclusion : String
  part_changes : List PartChanges
deriving DecidableEq

/-- `str.strip()`: drop whitespace from both ends.  (Structural over the
character list, so that concrete inputs evaluate.) -/
def pyStrip (s : String) : String :=
  ⟨((s.data.dropWhile Char.isWhitespace).reverse.dropWhile Char.isWhitespace).reverse⟩

/-- Python truthiness of `m.after_name and m.after_name.strip()`:
the after side is present when the name is a non-empty, non-whitespace
string. -/
def hasAfterName (m : MaterialChange) : Bool :=
  match m.after_name with
  | some s => s ≠ "" && pyStrip s ≠ ""
  | none => false

/-- `[m for m in pc.materials if m.is_changed]`. -/
def before_materials (pc : PartChanges) : List MaterialChange :=
  pc.materials.filter (·.is_changed)

/-- `[m for m in pc.materials if m.after_name and m.after_name.strip()]`. -/
def after_materials (pc : PartChanges) : List MaterialChange :=
  pc.materials.filter hasAfterName

/-- A group is written only when it has at least one active row
(flagged changed on the before side, or carrying an after name). -/
def isActive (pc : PartChanges) : Bool :=
  !(before_materials pc).isEmpty || !(after_materials pc).isEmpty

/-! ## Template Geometry Calculator (`_paper_height_inches`,
`_page_capacity_points`, `_row_height_points`) -/

/-- Page-setup and row-geometry attributes of one sheet.  Margins are in
inches, heights in points, following openpyxl. -/
structure SheetGeom where
  paperSize : Option Nat
  orientVal : Option String
  scale : Option Nat
  marginTop : Option ℚ
  marginBottom : Option ℚ
  marginHeader : Option ℚ
  marginFooter : Option ℚ
  rowHeights : Nat → Option ℚ
  defaultRowHeight : Option ℚ
  maxRow : Nat

/-- `getattr(sheet.page_setup, "orientation", "portrait") or "portrait"`:
a missing or empty orientation falls back to portrait. -/
def effectiveOrient (s : SheetGeom) : String :=
  match s.orientVal with
  | some o => if o = "" then "portrait" else o
  | none => "portrait"

/-- `ExcelGenerator._paper_height_inches`: A4 when `paperSize == 9`, and the
same A4 fallback for any other (or missing) paper size; orientation picks
the long or the short side. -/
def _paper_height_inches (s : SheetGeom) : ℚ :=
  let o := effectiveOrient s
  if s.paperSize = some 9 then
    (if o = "portrait" then 11.69 else 8.27)
  else
    (if o = "portrait" then 11.69 else 8.27)

/-- `ExcelGenerator._page_capacity_points`.  Note `scale or 100`: a missing
or zero scale is treated as 100 percent.  The header/footer margins are
read nowhere in this function. -/
def _page_capacity_points (s : SheetGeom) : ℚ :=
  let pts_per_inch : ℚ := 72
  let page_height_pts := _paper_height_inches s * pts_per_inch
  let top := (s.marginTop.getD 0) * pts_per_inch
  let bottom := (s.marginBottom.getD 0) * pts_per_inch
  let printable_pts := page_height_pts - top - bottom
  let scale : ℚ :=
    match s.scale with
    | some n => if n = 0 then 100 else (n : ℚ)
    | none => 100
  printable_pts / (scale / 100)

/-- `ExcelGenerator._row_height_points`: the explicit override if set, else
the sheet default, else 15pt. -/
def _row_height_points (s : SheetGeom) (r : Nat) : ℚ :=
  match s.rowHeights r with
  | some h => h
  | none => s.defaultRowHeight.getD 15

/-- Model of the spec sentence for `pageCapacity` (§4.1), written from the
spec words: page height for the paper size and orientation in points, minus
top and bottom margins in points, divided by (scale-percentage / 100).  It
takes no header/footer inputs at all. -/
def pageCapacitySpec (heightInches topInches bottomInches : ℚ) (scalePct : ℚ) : ℚ :=
  (heightInches * 72 - topInches * 72 - bottomInches * 72) / (scalePct / 100)

/-! ## Cells, merged regions and sheet content -/

/-- One rectangle of `sheet.merged_cells.ranges`. -/
structure MergedRange where
  rMin : Nat
  rMax : Nat
  cMin : Nat
  cMax : Nat
deriving DecidableEq

/-- `get_merged_cell_value`: the coordinate actually written for a nominal
(row, col) — the top-left corner of the first merged region containing it,
or the coordinate itself. -/
def get_merged_target (ranges : List MergedRange) (r c : Nat) : Nat × Nat :=
  match ranges.find? (fun mr =>
      mr.rMin ≤ r && r ≤ mr.rMax && mr.cMin ≤ c && c ≤ mr.cMax) with
  | some mr => (mr.rMin, mr.cMin)
  | none => (r, c)

/-- Cell contents of one sheet: `none` is an empty cell. -/
def SheetContent : Type := Nat → Nat → Option CellVal

/-- Write `v` at the merged-resolved target of nominal (r, c). -/
def setCell (ranges : List MergedRange) (content : SheetContent)
    (r c : Nat) (v : Option CellVal) : SheetContent :=
  let t := get_merged_target ranges r c
  fun r2 c2 => if (r2, c2) = t then v else content r2 c2

/-- One recorded write: nominal row, nominal column, value. -/
structure CellWrite where
  row : Nat
  col : Nat
  val : CellVal
deriving DecidableEq

/-- Apply a list of writes in order, each through merged-cell resolution. -/
def applyWrites (ranges : List MergedRange) (content : SheetContent)
    (ws : List CellWrite) : SheetContent :=
  ws.foldl (fun acc w => setCell ranges acc w.row w.col (some w.val)) content

/-- Python truthiness of a cell value (`if cell.value:`). -/
def truthyCell : Option CellVal → Bool
  | none => false
  | some (.str s) => s ≠ ""
  | some (.num q) => q ≠ 0
  | some (.date _ _ _) => true

/-- `str(cell.value)` for the value kinds the generator writes or reads. -/
def cellText : CellVal → String
  | .str s => s
  | .num q => toString q
  | .date y m d => toString y ++ "-" ++ toString m ++ "-" ++ toString d

/-- `cell.value is not None and str(cell.value).strip()`: the per-cell test
of `is_sheet_empty` and `compact_empty_rows`. -/
def cellHasData (v : Option CellVal) : Bool :=
  match v with
  | none => false
  | some w => pyStrip (cellText w) ≠ ""

/-! ## Table Bounds Locator (`_get_main_sheet_bounds`,
`_get_additional_sheet_bounds`) -/

/-- The cumulative-height scan shared by both bounds functions: walk the
rows in order, keep the last row whose accumulated height stays within
`cap`, and stop at the first row that overflows (the `break`). -/
def fitScan (g : SheetGeom) (cap : ℚ) : List Nat → ℚ → Nat → Nat
  | [], _, best => best
  | r :: rest, acc, best =>
    let acc2 := acc + _row_height_points g r
    if acc2 ≤ cap then fitScan g cap rest acc2 r else best

/-- Sum of `_row_height_points` over rows `lo..hi` inclusive. -/
def sumHeights (g : SheetGeom) (lo hi : Nat) : ℚ :=
  ((List.range' lo (hi + 1 - lo)).map (_row_height_points g)).sum

/-- `ExcelGenerator._get_main_sheet_bounds`.  `headerRow` is the result of
the `_find_table_header_row` text scan, carried as sheet data.  Returns
(data_start_row, data_end_row, table_physical_end_row). -/
def _get_main_sheet_bounds (g : SheetGeom) (headerRow : Option Nat) :
    Nat × Nat × Nat :=
  let data_start_row := match headerRow with
    | none => 16
    | some h => h + 3
  let bottom_block_start_row := 43
  let table_physical_end_row := bottom_block_start_row - 1
  let cap := _page_capacity_points g
  let form_end_row := g.maxRow
  let fixed_height :=
    sumHeights g 1 (data_start_row - 1) +
    sumHeights g bottom_block_start_row form_end_row
  let max_fit_row :=
    fitScan g cap
      (List.range' data_start_row (table_physical_end_row + 1 - data_start_row))
      fixed_height (data_start_row - 1)
  let data_end_row := max max_fit_row data_start_row
  (data_start_row, data_end_row, table_physical_end_row)

/-- `ExcelGenerator._get_additional_sheet_bounds`: the continuation-sheet
variant — fallback start row 7, capacity consumed from row 1, and a scan
bounded by `min(max(sheet.max_row, 200), 500)`. -/
def _get_additional_sheet_bounds (g : SheetGeom) (headerRow : Option Nat) :
    Nat × Nat :=
  let data_start_row := match headerRow with
    | none => 7
    | some h => h + 3
  let cap := _page_capacity_points g
  let max_scan := min (max g.maxRow 200) 500
  let max_fit_row := fitScan g cap (List.range' 1 max_scan) 0 1
  (data_start_row, max max_fit_row data_start_row)

/-! ## The change-table group writes -/

/-- The "before" half of one material row: name, unit and norm into
columns A, D, E of row `r`. -/
def beforeRowWrites (r : Nat) (m : MaterialChange) : List CellWrite :=
  [⟨r, 1, .str m.catalog_entry.before_name⟩,
   ⟨r, 4, .str m.catalog_entry.unit⟩,
   ⟨r, 5, .num m.catalog_entry.norm⟩]

/-- `material.after_unit if material.after_unit else material.catalog_entry.unit`
(Python truthiness: an empty override also falls back). -/
def afterUnitVal (m : MaterialChange) : String :=
  match m.after_unit with
  | some u => if u = "" then m.catalog_entry.unit else u
  | none => m.catalog_entry.unit

/-- The "after" half of one material row: name into column G, unit into
column I, and the norm into column J only when an override is present. -/
def afterRowWrites (r : Nat) (m : MaterialChange) : List CellWrite :=
  [⟨r, 7, .str (m.after_name.getD "")⟩,
   ⟨r, 9, .str (afterUnitVal m)⟩] ++
  (match m.after_norm with
   | some q => [⟨r, 10, .num q⟩]
   | none => [])

/-- The writes of one material-row index: the before half (when a before
material of that index exists) followed by the after half. -/
def rowWrites (bm am : List MaterialChange) (r i : Nat) : List CellWrite :=
  (match bm[i]? with
   | some m => beforeRowWrites (r + 1 + i) m
   | none => []) ++
  (match am[i]? with
   | some m => afterRowWrites (r + 1 + i) m
   | none => [])

/-- All writes of one group when nothing overflows: the part code into both
halves of the header row `r`, then the before and after columns filled
independently, row by row.  This is the loop body of the continuation-sheet
writers verbatim (they have no row-limit guard inside the loop). -/
def writeGroupAdd (r : Nat) (pc : PartChanges) : Nat × List CellWrite :=
  let bm := before_materials pc
  let am := after_materials pc
  let n := max bm.length am.length
  (r + 1 + n,
   [⟨r, 1, .str pc.part⟩, ⟨r, 7, .str pc.part⟩] ++
     ((List.range n).map (rowWrites bm am r)).flatten)

/-! ## Primary-sheet fill (`ExcelGenerator.fill_changes_table`) -/

/-- One iteration of the material loop on the primary sheet.  Unlike the
continuation-sheet writers, each iteration first re-checks
`current_row > data_end_row`; past the limit the iteration writes nothing
and instead collects the row's materials as leftover (first the before
material of index `i`, then the after material), without advancing the
row. -/
def mainMaterialStep (dataEnd : Nat) (bm am : List MaterialChange)
    (s : Nat × List CellWrite × List MaterialChange) (i : Nat) :
    Nat × List CellWrite × List MaterialChange :=
  let r := s.1
  let ws := s.2.1
  let leftover := s.2.2
  if r > dataEnd then
    (r, ws,
     leftover ++
       (match bm[i]? with | some m => [m] | none => []) ++
       (match am[i]? with | some m => [m] | none => []))
  else
    let ws1 := match bm[i]? with
      | some m => ws ++ beforeRowWrites r m
      | none => ws
    let ws2 := match am[i]? with
      | some m => ws1 ++ afterRowWrites r m
      | none => ws1
    (r + 1, ws2, leftover)

/-- Writing one group on the primary sheet: the part code into columns A
and G of row `r`, then `max` material iterations.  Returns the next free
row, the writes, and any leftover materials the guard refused to write. -/
def writeGroupMain (dataEnd r : Nat) (pc : PartChanges) :
    Nat × List CellWrite × List MaterialChange :=
  let bm := before_materials pc
  let am := after_materials pc
  (List.range (max bm.length am.length)).foldl (mainMaterialStep dataEnd bm am)
    (r + 1, [⟨r, 1, .str pc.part⟩, ⟨r, 7, .str pc.part⟩], [])

/-- The mutable state of `fill_changes_table`: the next row to write, the
writes issued so far, the deferred queue (`remaining_data`) and the
`overflow_started` flag. -/
structure FillState where
  currentRow : Nat
  writes : List CellWrite
  remaining : List PartChanges
  overflowStarted : Bool
deriving DecidableEq

/-- One iteration of the group loop of `fill_changes_table`, in source
order: groups pinned to a continuation page are deferred up front (when
active); inactive groups are skipped; after the first overflow everything
is deferred; otherwise the group is written only when
`rows_needed <= rows_available`, and overflowing instead defers the group
and latches the flag. -/
def fillStep (dataEnd : Nat) (s : FillState) (pc : PartChanges) : FillState :=
  match pc.additional_page_number with
  | some _ =>
    if isActive pc then { s with remaining := s.remaining ++ [pc] } else s
  | none =>
    let bm := before_materials pc
    let am := after_materials pc
    let max_rows := max bm.length am.length
    if !isActive pc then s
    else if s.overflowStarted then { s with remaining := s.remaining ++ [pc] }
    else
      let rows_needed : Int := 1 + max_rows
      let rows_available : Int := (dataEnd : Int) - (s.currentRow : Int) + 1
      if rows_needed > rows_available then
        { s with remaining := s.remaining ++ [pc], overflowStarted := true }
      else
        let res := writeGroupMain dataEnd s.currentRow pc
        { s with
            currentRow := res.1,
            writes := s.writes ++ res.2.1,
            remaining := s.remaining ++
              (if res.2.2.isEmpty then []
               else [⟨pc.part, res.2.2, none⟩]) }

/-- `ExcelGenerator.fill_changes_table`: fold the group loop over the
document's ordered part changes, starting at `data_start_row`. -/
def fill_changes_table (dataStart dataEnd : Nat) (parts : List PartChanges) :
    FillState :=
  parts.foldl (fillStep dataEnd) ⟨dataStart, [], [], false⟩

/-! ## Continuation sheets (`ExcelGenerator.handle_additional_sheets`) -/

/-- Substring search over character lists (structural, so that concrete
inputs evaluate). -/
def containsSubList (pat : List Char) : List Char → Bool
  | [] => pat.isEmpty
  | c :: rest => pat.isPrefixOf (c :: rest) || containsSubList pat rest

/-- Substring test (`pat in s` for the literals of the source). -/
def containsSub (pat s : String) : Bool := containsSubList pat.data s.data

/-- The string routines of the source that operate on Cyrillic text
(`str.lower`, `str.upper`) and the two `re.sub` substitutions of the
header re-stamping, abstracted as explicit functions. -/
structure TextOps where
  lower : String → String
  upper : String → String
  renumber : Nat → String → String
  redate : String → String → String

/-- One continuation sheet, named by its 1-based page index plus the
trailing marker.  `headerRow` carries the `_find_table_header_row` scan
result as sheet data. -/
structure AddSheet where
  page : Nat
  content : SheetContent
  ranges : List MergedRange
  geom : SheetGeom
  headerRow : Option Nat
  visible : Bool
  rowHidden : Nat → Bool

/-- The workbook as seen by `handle_additional_sheets`: the sheets whose
names end in the page marker, plus the main sheet in its role as the
last-resort copy source for `ensure_additional_sheet`. -/
structure Workbook where
  addSheets : List AddSheet
  mainAsAdd : AddSheet

def getSheet (wb : Workbook) (p : Nat) : Option AddSheet :=
  wb.addSheets.find? (·.page = p)

def getSheetD (wb : Workbook) (p : Nat) : AddSheet :=
  (getSheet wb p).getD wb.mainAsAdd

def putSheet (wb : Workbook) (s : AddSheet) : Workbook :=
  { wb with addSheets := wb.addSheets.map (fun t => if t.page = s.page then s else t) }

/-- The `max_page` scans over workbook names ending in the marker
(`int(name[:-1])`, starting from 0). -/
def maxPageNum (wb : Workbook) : Nat :=
  wb.addSheets.foldl (fun a s => max a s.page) 0

/-- The smallest page index, matching `additional_sheet_names[0]` under the
numeric sort key. -/
def minPageNum (wb : Workbook) : Nat :=
  match wb.addSheets.map (·.page) with
  | [] => 0
  | p :: rest => rest.foldl min p

/-- `ensure_additional_sheet`: reuse the sheet of that page if present,
else append a copy of the current state of the base sheet under the new
page name (`wb.copy_worksheet(base_sheet)`). -/
def ensure_additional_sheet (baseId : Option Nat) (wb : Workbook) (p : Nat) :
    Workbook :=
  if (getSheet wb p).isSome then wb
  else
    let b := match baseId with
      | some q => getSheetD wb q
      | none => wb.mainAsAdd
    { wb with addSheets := wb.addSheets ++ [{ b with page := p }] }

/-- The page-setup half of `_normalize_additional_sheet_layout`: paper
size, orientation, scale and all four margins plus header/footer are copied
from the base sheet.  (Fit-to-page, print options and column widths are
also copied in the source but are read by none of the embedded
functions.) -/
def copyPageSetup (base tgt : SheetGeom) : SheetGeom :=
  { tgt with
      paperSize := base.paperSize,
      orientVal := base.orientVal,
      scale := base.scale,
      marginTop := base.marginTop,
      marginBottom := base.marginBottom,
      marginHeader := base.marginHeader,
      marginFooter := base.marginFooter }

def _normalize_additional_sheet_layout (sheet base : AddSheet) : AddSheet :=
  { sheet with geom := copyPageSetup base.geom sheet.geom }

def boundsOf (s : AddSheet) : Nat × Nat :=
  _get_additional_sheet_bounds s.geom s.headerRow

/-- `_set_rows_hidden`: hide or show the row range without touching
styles; an inverted range is a no-op. -/
def _set_rows_hidden (s : AddSheet) (lo hi : Nat) (b : Bool) : AddSheet :=
  if hi < lo then s
  else { s with rowHidden := fun r => if lo ≤ r ∧ r ≤ hi then b else s.rowHidden r }

/-- Read the cell at nominal (r, c) through merged-cell resolution. -/
def getCell (s : AddSheet) (r c : Nat) : Option CellVal :=
  let t := get_merged_target s.ranges r c
  s.content t.1 t.2

/-- `is_sheet_empty`: no data in the table area (columns A..N between the
sheet's own data bounds). -/
def is_sheet_empty (s : AddSheet) : Bool :=
  let bd := boundsOf s
  !((List.range' bd.1 (bd.2 + 1 - bd.1)).any (fun r =>
      (List.range' 1 14).any (fun c => cellHasData (getCell s r c))))

/-- `clear_additional_sheet_data`: blank the table area A..N between the
sheet's own data bounds, leaving the header untouched. -/
def clear_additional_sheet_data (s : AddSheet) : AddSheet :=
  let bd := boundsOf s
  let c2 := (List.range' bd.1 (bd.2 + 1 - bd.1)).foldl
    (fun acc r => (List.range' 1 14).foldl (fun acc2 c => setCell s.ranges acc2 r c none) acc)
    s.content
  { s with content := c2 }

/-- The per-row scan of `fill_additional_sheet_header`: the first cell in
columns A..N of `row` whose truthy text contains the notice marker and the
numero sign; returns its resolved coordinate and text. -/
def izvScanRow (ops : TextOps) (ranges : List MergedRange)
    (content : SheetContent) (row : Nat) : Option (Nat × Nat × String) :=
  (List.range' 1 14).findSome? (fun c =>
    let t := get_merged_target ranges row c
    match content t.1 t.2 with
    | none => none
    | some w =>
      if truthyCell (some w) &&
         containsSub "извещ" (ops.lower (cellText w)) &&
         containsSub "№" (cellText w)
      then some (t.1, t.2, cellText w) else none)

/-- The outer row loop of `fill_additional_sheet_header`: try rows 1..3 in
order; a row whose matching cell yields an unchanged substitution does not
stop the outer loop. -/
def addHeaderRows (ops : TextOps) (docNum : Nat) (today : String)
    (ranges : List MergedRange) (content : SheetContent) :
    List Nat → SheetContent
  | [] => content
  | row :: rest =>
    match izvScanRow ops ranges content row with
    | none => addHeaderRows ops docNum today ranges content rest
    | some (tr, tc, text) =>
      let new := ops.redate today (ops.renumber docNum text)
      if new ≠ text then
        fun r c => if (r, c) = (tr, tc) then some (.str new) else content r c
      else addHeaderRows ops docNum today ranges content rest

/-- `fill_additional_sheet_header`: write the addendum marker into the top
cell, then re-stamp the document number and current date in the notice
line of rows 1..3. -/
def fill_additional_sheet_header (ops : TextOps) (docNum : Nat)
    (today : String) (s : AddSheet) : AddSheet :=
  let c1 := setCell s.ranges s.content 1 1 (some (.str "Дополнение"))
  { s with content := addHeaderRows ops docNum today s.ranges c1 [1, 2, 3] }

/-- The inner part loop of phase 1 of `handle_additional_sheets` (and of
the continuation writer generally): skip inactive groups, stop at the
first group that does not fit — carrying the rest of the page's list —
and otherwise write the whole group.  Returns (next row, writes, number of
groups written, carry-over). -/
def writePartsLoop (de : Nat) :
    List PartChanges → Nat → List CellWrite → Nat →
    Nat × List CellWrite × Nat × List PartChanges
  | [], r, ws, n => (r, ws, n, [])
  | pc :: rest, r, ws, n =>
    let bm := before_materials pc
    let am := after_materials pc
    if bm.isEmpty && am.isEmpty then writePartsLoop de rest r ws n
    else
      let rows_needed : Int := 1 + (max bm.length am.length : Nat)
      let rows_available : Int := (de : Int) - (r : Int) + 1
      if rows_needed > rows_available then (r, ws, n, pc :: rest)
      else
        let res := writeGroupAdd r pc
        writePartsLoop de rest res.1 (ws ++ res.2) (n + 1)

/-- The inner part loop of phase 2: identical fit-or-stop rule, but the
kept remainder is computed as `remaining_parts[remaining_parts.index(part_change):]`
over the page's original list. -/
def writePartsLoop2 (de : Nat) (orig : List PartChanges) :
    List PartChanges → Nat → List CellWrite → Nat →
    Nat × List CellWrite × Nat × List PartChanges
  | [], r, ws, n => (r, ws, n, [])
  | pc :: rest, r, ws, n =>
    let bm := before_materials pc
    let am := after_materials pc
    if bm.isEmpty && am.isEmpty then writePartsLoop2 de orig rest r ws n
    else
      let rows_needed : Int := 1 + (max bm.length am.length : Nat)
      let rows_available : Int := (de : Int) - (r : Int) + 1
      if rows_needed > rows_available then (r, ws, n, orig.drop (orig.indexOf pc))
      else
        let res := writeGroupAdd r pc
        writePartsLoop2 de orig rest res.1 (ws ++ res.2) (n + 1)

/-- The page preparation shared by both phases: ensure the sheet exists,
normalize its layout to the base sheet, compute its bounds, unhide the
printable rows and hide the rest, clear the data area and re-stamp the
header.  Returns the updated workbook and the data bounds. -/
def preparePage (ops : TextOps) (docNum : Nat) (today : String)
    (baseId : Option Nat) (wb : Workbook) (page : Nat) :
    Workbook × Nat × Nat :=
  let wb1 := ensure_additional_sheet baseId wb page
  let base := match baseId with
    | some q => getSheetD wb1 q
    | none => wb1.mainAsAdd
  let sh0 := getSheetD wb1 page
  let sh1 := _normalize_additional_sheet_layout sh0 base
  let bd := boundsOf sh1
  let sh2 := _set_rows_hidden sh1 1 bd.2 false
  let sh3 := _set_rows_hidden sh2 (bd.2 + 1) (max sh2.geom.maxRow (bd.2 + 1)) true
  let sh4 := clear_additional_sheet_data sh3
  let sh5 := fill_additional_sheet_header ops docNum today sh4
  (putSheet wb1 sh5, bd.1, bd.2)

/-- One phase-1 page: prepare it, run the part loop from the data start,
apply the writes, and mark the sheet visible when anything was written.
Returns the workbook, the number of groups written, and the carry-over. -/
def processPage1 (ops : TextOps) (docNum : Nat) (today : String)
    (baseId : Option Nat) (wb : Workbook) (page : Nat)
    (parts : List PartChanges) : Workbook × Nat × List PartChanges :=
  let pr := preparePage ops docNum today baseId wb page
  let sh := getSheetD pr.1 page
  let res := writePartsLoop pr.2.2 parts pr.2.1 [] 0
  let sh2 := { sh with content := applyWrites sh.ranges sh.content res.2.1 }
  let sh3 := if res.2.2.1 > 0 then { sh2 with visible := true } else sh2
  (putSheet pr.1 sh3, res.2.2.1, res.2.2.2)

/-- One phase-2 page: same preparation, but the part loop keeps the
`index`-based remainder. -/
def processPage2 (ops : TextOps) (docNum : Nat) (today : String)
    (baseId : Option Nat) (wb : Workbook) (page : Nat)
    (parts : List PartChanges) : Workbook × Nat × List PartChanges :=
  let pr := preparePage ops docNum today baseId wb page
  let sh := getSheetD pr.1 page
  let res := writePartsLoop2 pr.2.2 parts parts pr.2.1 [] 0
  let sh2 := { sh with content := applyWrites sh.ranges sh.content res.2.1 }
  let sh3 := if res.2.2.1 > 0 then { sh2 with visible := true } else sh2
  (putSheet pr.1 sh3, res.2.2.1, res.2.2.2)

/-- Phase 1 (`while parts_without_page_number or carry_over`), fuelled:
each pass takes carry-over plus the still-unplaced queue, fills page
`page_num`, and advances to the next page. -/
def phase1 (ops : TextOps) (docNum : Nat) (today : String)
    (baseId : Option Nat) :
    Nat → Workbook → List PartChanges → List PartChanges → Nat → List Nat →
    Option (Workbook × List Nat)
  | 0, _, _, _, _, _ => none
  | fuel + 1, wb, pw, co, page, pwd =>
    if pw.isEmpty && co.isEmpty then some (wb, pwd)
    else
      let res := processPage1 ops docNum today baseId wb page (co ++ pw)
      phase1 ops docNum today baseId fuel res.1 [] res.2.2 (page + 1)
        (if res.2.1 > 0 then pwd ++ [page] else pwd)

/-- The phase-2 search for the first empty sheet (`while target_page <= 100`),
creating each inspected sheet on the way. -/
def searchEmpty (baseId : Option Nat) (wb : Workbook) (t : Nat) :
    Workbook × Option Nat :=
  if h : t ≤ 100 then
    let wb1 := ensure_additional_sheet baseId wb t
    if is_sheet_empty (getSheetD wb1 t) then (wb1, some t)
    else searchEmpty baseId wb1 (t + 1)
  else (wb, none)
termination_by 101 - t

/-- Phase 2 (`while remaining_parts`), fuelled: fill the target page with
the pinned groups, and on overflow continue on a fresh page numbered past
every existing sheet. -/
def phase2 (ops : TextOps) (docNum : Nat) (today : String)
    (baseId : Option Nat) :
    Nat → Workbook → List PartChanges → Nat → List Nat →
    Option (Workbook × List Nat)
  | 0, _, _, _, _ => none
  | fuel + 1, wb, remaining, target, pwd =>
    if remaining.isEmpty then some (wb, pwd)
    else
      let res := processPage2 ops docNum today baseId wb target remaining
      let pwd2 := if res.2.1 > 0 then pwd ++ [target] else pwd
      if res.2.2.isEmpty then phase2 ops docNum today baseId fuel res.1 res.2.2 target pwd2
      else phase2 ops docNum today baseId fuel res.1 res.2.2 (maxPageNum res.1 + 1) pwd2

/-- `ExcelGenerator.handle_additional_sheets`: filter to active groups,
split into the unpinned and the pinned queue, run phase 1 from page 1 and
phase 2 from the first empty sheet at page 2 or beyond, then hide every
continuation sheet that received no data and show every one that did. -/
def handle_additional_sheets (ops : TextOps) (docNum : Nat) (today : String)
    (fuel : Nat) (wb : Workbook) (remaining : List PartChanges) :
    Option Workbook :=
  let filtered := remaining.filter isActive
  let parts_without := filtered.filter (·.additional_page_number.isNone)
  let parts_with := filtered.filter (·.additional_page_number.isSome)
  if parts_without.isEmpty && parts_with.isEmpty then
    some { wb with addSheets := wb.addSheets.map (fun s => { s with visible := false }) }
  else
    let baseId : Option Nat :=
      if (getSheet wb 1).isSome then some 1
      else if wb.addSheets.isEmpty then none
      else some (minPageNum wb)
    match (if parts_without.isEmpty then some (wb, ([] : List Nat))
           else phase1 ops docNum today baseId fuel wb parts_without [] 1 []) with
    | none => none
    | some res1 =>
      match (if parts_with.isEmpty then some res1
             else
               let sr := searchEmpty baseId res1.1 2
               let target := match sr.2 with
                 | some t => t
                 | none => maxPageNum sr.1 + 1
               phase2 ops docNum today baseId fuel sr.1 parts_with target res1.2) with
      | none => none
      | some res2 =>
        some { res2.1 with addSheets := res2.1.addSheets.map (fun s =>
          { s with visible := decide (s.page ∈ res2.2) }) }

/-! ## Primary sheet: clearing, header, delivered-to marks, compaction -/

/-- The primary template sheet.  `dimsPresent` models
`row in sheet.row_dimensions`. -/
structure MainSheet where
  content : SheetContent
  ranges : List MergedRange
  geom : SheetGeom
  headerRow : Option Nat
  rowHidden : Nat → Bool
  dimsPresent : Nat → Bool

/-- Insertion sort on strings, for `sorted(...)`. -/
def insertSorted (x : String) : List String → List String
  | [] => [x]
  | y :: ys => if x ≤ y then x :: y :: ys else y :: insertSorted x ys

def sortStrings (l : List String) : List String := l.foldr insertSorted []

/-- `DocumentData.get_all_workshops`: the sorted set of workshops of the
materials flagged changed (and of no other materials). -/
def get_all_workshops (doc : DocumentData) : List String :=
  sortStrings ((doc.part_changes.foldr (fun pc acc =>
    (pc.materials.filter (·.is_changed)).map (fun m => m.catalog_entry.workshop) ++ acc)
    []).dedup)

/-- `if cell.value: cell.value = None` at one coordinate, through
merged-cell resolution. -/
def clearIfCell (ranges : List MergedRange) (content : SheetContent)
    (r c : Nat) : SheetContent :=
  let t := get_merged_target ranges r c
  if truthyCell (content t.1 t.2) then setCell ranges content r c none else content

/-- `clear_template_data`: blank the change-table area (A..N, rows 16 up
to at most 42 — row 43 and below are the manual block), the delivered-to
marks of row 7, and the header fields that will be refilled. -/
def clear_template_data_content (ops : TextOps) (ms : MainSheet) : SheetContent :=
  let c1 := (List.range' 16 (min (ms.geom.maxRow + 1) 43 - 16)).foldl
    (fun acc r => (List.range' 1 14).foldl (fun acc2 c =>
      let t := get_merged_target ms.ranges r c
      if (acc2 t.1 t.2).isSome then setCell ms.ranges acc2 r c none else acc2) acc)
    ms.content
  let c2 := (List.range' 1 15).foldl (fun acc c =>
    let t := get_merged_target ms.ranges 7 c
    match acc t.1 t.2 with
    | some w =>
      if truthyCell (some w) &&
         (ops.lower (pyStrip (cellText w)) = "х" || ops.lower (pyStrip (cellText w)) = "x")
      then setCell ms.ranges acc 7 c none else acc
    | none => acc) c1
  let c3 := clearIfCell ms.ranges c2 9 5
  let c4 := clearIfCell ms.ranges c3 9 8
  let c5 := clearIfCell ms.ranges c4 10 2
  let c6 := clearIfCell ms.ranges c5 10 5
  let c7v := clearIfCell ms.ranges c6 11 2
  let c8 := clearIfCell ms.ranges c7v 11 5
  let c9v := clearIfCell ms.ranges c8 10 8
  c9v

def clear_template_data (ops : TextOps) (ms : MainSheet) : MainSheet :=
  { ms with content := clear_template_data_content ops ms }

/-- `fill_header`: re-stamp the document number into the row-5 title cell,
then the implementation date, validity period, products, reason and the
default conclusion text at their fixed coordinates. -/
def fill_header_content (ops : TextOps) (doc : DocumentData) (ms : MainSheet) : SheetContent :=
  let c1 := match (List.range' 1 15).findSome? (fun c =>
      let t := get_merged_target ms.ranges 5 c
      match ms.content t.1 t.2 with
      | none => none
      | some w =>
        if truthyCell (some w) && containsSub "извещение" (ops.lower (cellText w))
        then some (t.1, t.2, cellText w) else none) with
    | some (tr, tc, text) =>
      if containsSub "№" text then
        (fun r c => if (r, c) = (tr, tc)
          then some (.str (ops.renumber (doc.document_number.getD 0) text))
          else ms.content r c)
      else ms.content
    | none => ms.content
  let c2 := match doc.implementation_date with
    | some d => setCell ms.ranges c1 9 5 (some (.date d.year d.month d.day))
    | none => c1
  let c3 := match doc.validity_period with
    | some s => if s ≠ ""
        then setCell ms.ranges c2 9 8 (some (.str ("Срок действия: " ++ s)))
        else c2
    | none => c2
  let c4 := if !doc.products.isEmpty then
      setCell ms.ranges
        (setCell ms.ranges c3 10 2 (some (.str "Изделие:")))
        10 5 (some (.str (String.intercalate ", " doc.products)))
    else c3
  let c5 := if doc.reason ≠ "" then
      setCell ms.ranges
        (setCell ms.ranges c4 11 2 (some (.str "Причина:")))
        11 5 (some (.str doc.reason))
    else c4
  let c6 := setCell ms.ranges c5 10 8
    (some (.str "Заключение ТКО (допускается/не допускается)"))
  c6

def fill_header (ops : TextOps) (doc : DocumentData) (ms : MainSheet) : MainSheet :=
  { ms with content := fill_header_content ops doc ms }

/-- Replace-or-append on the association list modelling the
`workshop_cols` dict. -/
def upsert (l : List (String × Nat)) (k : String) (v : Nat) : List (String × Nat) :=
  if l.any (fun p => p.1 = k) then l.map (fun p => if p.1 = k then (k, v) else p)
  else l ++ [(k, v)]

def lookupCol (l : List (String × Nat)) (k : String) : Option Nat :=
  (l.find? (fun p => p.1 = k)).map (·.2)

/-- The header-row scan of `fill_vruhcheno` over row 6, columns A..O,
building the workshop-to-column dict with the source's elif chain. -/
def workshopColsScan (ops : TextOps) (ms : MainSheet) : List (String × Nat) :=
  (List.range' 1 15).foldl (fun acc c =>
    let t := get_merged_target ms.ranges 6 c
    match ms.content t.1 t.2 with
    | none => acc
    | some w =>
      if truthyCell (some w) then
        let val := ops.upper (pyStrip (cellText w))
        if containsSub "ПЗУ" val || (containsSub "ПДО" val && !containsSub "КЛАДОВАЯ" val)
        then upsert acc "ПЗУ" c
        else if containsSub "ЗМУ" val then upsert acc "ЗМУ" c
        else if containsSub "СУ" val && !containsSub "ОСУ" val then upsert acc "СУ" c
        else if containsSub "ОСУ" val then upsert acc "ОСУ" c
        else acc
      else acc) []

/-- The hard-coded alternative names used when reading the configuration
fallback (`config_mapping` in the source). -/
def config_mapping : List (String × List String) :=
  [("ПЗУ", ["ПДО", "Кладовая ПДО"]), ("ЗМУ", ["ЗМУ"]),
   ("СУ", ["СУ"]), ("ОСУ", ["ОСУ"])]

/-- The configuration-fallback branch of `fill_vruhcheno`: write the mark
directly (no merged-cell resolution — `sheet[coord]`) at the first
configured coordinate of an alternative name for each workshop. -/
def vruhchenoFallback (cfg : List (String × Nat × Nat)) (ws : List String)
    (content : SheetContent) : SheetContent :=
  ws.foldl (fun acc w =>
    match config_mapping.find? (fun p => p.1 = w) with
    | none => acc
    | some pr =>
      match pr.2.findSome? (fun a => (cfg.find? (fun q => q.1 = a)).map (·.2)) with
      | some rc => fun r2 c2 => if (r2, c2) = rc then some (.str "х") else acc r2 c2
      | none => acc) content

/-- `fill_vruhcheno`: a mark in row 7 under every found workshop header
column whose workshop occurs in the document; when no headers are found,
the configured coordinates are used instead. -/
def fill_vruhcheno_content (ops : TextOps) (cfg : List (String × Nat × Nat))
    (doc : DocumentData) (ms : MainSheet) : SheetContent :=
  let workshops_in_doc := get_all_workshops doc
  let workshop_cols := workshopColsScan ops ms
  if workshop_cols.isEmpty then
    vruhchenoFallback cfg workshops_in_doc ms.content
  else
    workshops_in_doc.foldl (fun acc w =>
      match lookupCol workshop_cols w with
      | some c => setCell ms.ranges acc 7 c (some (.str "х"))
      | none => acc) ms.content

def fill_vruhcheno (ops : TextOps) (cfg : List (String × Nat × Nat))
    (doc : DocumentData) (ms : MainSheet) : MainSheet :=
  { ms with content := fill_vruhcheno_content ops cfg doc ms }

/-- `compact_empty_rows`: reset hiding on rows 16..42, find the last row
with data in columns A..N, and hide (with zero height) every empty row
from there down to 42.  Row 43 and the manual block below it are never
touched. -/
def compact_empty_rows (ms : MainSheet) : MainSheet :=
  let hid1 : Nat → Bool := fun r =>
    if 16 ≤ r ∧ r ≤ 42 ∧ ms.dimsPresent r then false else ms.rowHidden r
  let last_used := (List.range' 16 27).foldl (fun acc r =>
    if (List.range' 1 14).any (fun c =>
        let t := get_merged_target ms.ranges r c
        cellHasData (ms.content t.1 t.2))
    then r else acc) 15
  if last_used < 42 then
    { ms with
        rowHidden := fun r => if last_used + 1 ≤ r ∧ r ≤ 42 then true else hid1 r,
        dimsPresent := fun r =>
          if last_used + 1 ≤ r ∧ r ≤ 42 then true else ms.dimsPresent r,
        geom := { ms.geom with rowHeights := fun r =>
          if last_used + 1 ≤ r ∧ r ≤ 42 then some 0 else ms.geom.rowHeights r } }
  else { ms with rowHidden := hid1 }

/-! ## The generation pipeline (`ExcelGenerator.generate`) -/

/-- The primary-sheet portion of `generate`, in call order: clear the
template data, fill the header, fill the delivered-to block, fill the
change table.  Row compaction runs after continuation handling in the
source, but continuation handling never touches the primary sheet, so it
is composed here.  Returns the finished sheet and the fill state (whose
`remaining` feeds the continuation sheets). -/
def generateMainSheet (ops : TextOps) (cfg : List (String × Nat × Nat))
    (doc : DocumentData) (ms : MainSheet) : MainSheet × FillState :=
  let ms1 := clear_template_data ops ms
  let ms2 := fill_header ops doc ms1
  let ms3 := fill_vruhcheno ops cfg doc ms2
  let bounds := _get_main_sheet_bounds ms3.geom ms3.headerRow
  let fs := fill_changes_table bounds.1 bounds.2.1 doc.part_changes
  let ms4 := { ms3 with content := applyWrites ms3.ranges ms3.content fs.writes }
  (compact_empty_rows ms4, fs)

/-- A loaded template file: the primary sheet plus the continuation-sheet
workbook. -/
structure Template where
  mainSheet : MainSheet
  wb : Workbook

/-- The written output workbook. -/
structure GenOutput where
  mainSheet : MainSheet
  wb : Workbook

/-- The body of `generate` after number assignment: run the primary-sheet
pipeline, then either hide all continuation sheets (nothing deferred) or
hand the deferred queue to `handle_additional_sheets`. -/
def generateCore (ops : TextOps) (cfg : List (String × Nat × Nat))
    (today : String) (fuel : Nat) (docNum : Nat) (doc2 : DocumentData)
    (t : Template) : Option (GenOutput × DocumentData) :=
  let mres := generateMainSheet ops cfg doc2 t.mainSheet
  let wbRes := if mres.2.remaining.isEmpty then
      some { t.wb with addSheets := t.wb.addSheets.map (fun s => { s with visible := false }) }
    else handle_additional_sheets ops docNum today fuel t.wb mres.2.remaining
  match wbRes with
  | none => none
  | some wb2 => some ({ mainSheet := mres.1, wb := wb2 }, doc2)

/-- `ExcelGenerator.generate`, from a freshly loaded template: assign the
document number (from the numbering store keyed by the implementation
year when unset — the source mutates `document_data.document_number` in
place, returned here as the second component), then run the pipeline. -/
def generateModel (ops : TextOps) (cfg : List (String × Nat × Nat))
    (nextNumber : Option Nat → Nat) (today : String) (fuel : Nat)
    (doc : DocumentData) (t : Template) : Option (GenOutput × DocumentData) :=
  let docNum := match doc.document_number with
    | some n => n
    | none => nextNumber (doc.implementation_date.map (·.year))
  generateCore ops cfg today fuel docNum
    { doc with document_number := some docNum } t

/-- The on-disk view of a run: the template file (never written) and the
output file the run replaces.  `generate` reloads the template from
`template_path` on every call. -/
structure Disk where
  templateFile : Template
  outputFile : Option GenOutput

/-- One full generation run against the disk: load the template, build the
output workbook, replace the output file.  A run that never finishes
produces nothing. -/
def generateToDisk (ops : TextOps) (cfg : List (String × Nat × Nat))
    (nextNumber : Option Nat → Nat) (today : String) (fuel : Nat)
    (d : Disk) (doc : DocumentData) : Option (Disk × DocumentData) :=
  match generateModel ops cfg nextNumber today fuel doc d.templateFile with
  | none => none
  | some od => some ({ d with outputFile := some od.1 }, od.2)

/-! ## Pin allocation in the editing layer
(`ChangesTableWidget.add_part`, `MainWindow.add_additional_page_data`) -/

/-- The `max_existing_page` scan of `add_part`: the largest pin carried by
any existing group, 0 when none carries one. -/
def maxExistingPage (parts : List PartChanges) : Nat :=
  parts.foldl (fun acc pc => match pc.additional_page_number with
    | some p => max acc p
    | none => acc) 0

/-- The pin-correction of `add_part` (lines 653-678): a requested pin that
is not strictly greater than the maximum existing pin is silently replaced
by (maximum existing pin + 1); no requested pin passes through unchanged
unless it exceeds every existing pin. -/
def bumpPin (parts : List PartChanges) (requested : Option Nat) : Option Nat :=
  match requested with
  | none => none
  | some p =>
    if p ≤ maxExistingPage parts then some (maxExistingPage parts + 1) else some p

/-- Appending a freshly added group with its corrected pin. -/
def add_part (doc : List PartChanges) (partName : String)
    (materials : List MaterialChange) (requested : Option Nat) : List PartChanges :=
  doc ++ [⟨partName, materials, bumpPin doc requested⟩]

/-- Adding several groups in sequence, each with its requested pin. -/
def addPartsSeq (doc : List PartChanges) :
    List (String × Option Nat) → List PartChanges
  | [] => doc
  | (nm, req) :: rest => addPartsSeq (add_part doc nm [] req) rest

/-! ## The write boundary (`generate`, lines 282-308 and 362-416) -/

inductive GenError where
  | templateMissing
  | directoryNotWritable
  | fileLocked
  | replaceFailed
deriving DecidableEq

/-- The parts of the filesystem the save path touches: file contents by
path, the set of paths held open exclusively by another process, and
whether the destination directory admits writes (the `.write_test`
probe). -/
structure FileSystem where
  files : List (String × List Nat)
  locked : List String
  dirWritable : Bool
deriving DecidableEq

def lookupFile (fs : FileSystem) (p : String) : Option (List Nat) :=
  (fs.files.find? (·.1 = p)).map (·.2)

def isLocked (fs : FileSystem) (p : String) : Bool := fs.locked.contains p

def removeFileFS (fs : FileSystem) (p : String) : FileSystem :=
  { fs with files := fs.files.filter (fun q => q.1 ≠ p) }

def writeFileFS (fs : FileSystem) (p : String) (b : List Nat) : FileSystem :=
  { removeFileFS fs p with files := (removeFileFS fs p).files ++ [(p, b)] }

/-- The save path of `generate`: check the directory, probe the existing
destination for an exclusive lock (`open(output_path, 'r+b')`, raised as
the distinct file-locked error before any write), then write the workbook
to the temporary file, unlink the destination and rename the temporary
file over it.  A destination that cannot be unlinked (still locked) loses
only the temporary file. -/
def generate_save (fs : FileSystem) (outputPath tmpPath : String)
    (wbBytes : List Nat) : Except GenError Unit × FileSystem :=
  if !fs.dirWritable then (.error .directoryNotWritable, fs)
  else if (lookupFile fs outputPath).isSome && isLocked fs outputPath then
    (.error .fileLocked, fs)
  else
    let fs1 := removeFileFS fs tmpPath
    let fs2 := writeFileFS fs1 tmpPath wbBytes
    if (lookupFile fs2 outputPath).isSome then
      if isLocked fs2 outputPath then (.error .replaceFailed, removeFileFS fs2 tmpPath)
      else
        let fs3 := removeFileFS fs2 outputPath
        (.ok (), writeFileFS (removeFileFS fs3 tmpPath) outputPath wbBytes)
    else (.ok (), writeFileFS (removeFileFS fs2 tmpPath) outputPath wbBytes)

/-! # Theorems -/

/-- C5: `pageCapacity(sheet)` equals the page height for the sheet's paper
size and orientation (A4 portrait when unspecified) minus top and bottom
margins, all in points, divided by (scale-percentage / 100); the
header/footer margin values are not subtracted (the capacity is invariant
under them). -/
theorem c5_page_capacity (s : SheetGeom) (n : Nat) (t b : ℚ)
    (hs : s.scale = some n) (hn : n ≠ 0)
    (ht : s.marginTop = some t) (hb : s.marginBottom = some b) :
    _page_capacity_points s =
      pageCapacitySpec (_paper_height_inches s) t b (n : ℚ) ∧
    (∀ h f, _page_capacity_points
        { s with marginHeader := h, marginFooter := f } =
      _page_capacity_points s) ∧
    (∀ g : SheetGeom, g.paperSize = none → g.orientVal = none →
      _paper_height_inches g = 11.69) := by
  refine ⟨?_, ?_, ?_⟩
  · simp [_page_capacity_points, pageCapacitySpec, hs, hn, ht, hb]
  · intro h f
    simp [_page_capacity_points, _paper_height_inches, effectiveOrient]
  · intro g h1 h2
    simp [_paper_height_inches, effectiveOrient, h1, h2]

/-- A concrete sheet geometry for exercising the capacity formula. -/
def c5Geom : SheetGeom :=
  { paperSize := some 9, orientVal := some "portrait", scale := some 70,
    marginTop := some 0.75, marginBottom := some 0.75,
    marginHeader := some 0.3, marginFooter := some 0.3,
    rowHeights := fun _ => none, defaultRowHeight := some 15, maxRow := 50 }

theorem c5_witness :
    c5Geom.scale = some 70 ∧
    _page_capacity_points c5Geom =
      pageCapacitySpec (_paper_height_inches c5Geom) 0.75 0.75 (70 : ℚ) :=
  ⟨rfl, (c5_page_capacity c5Geom 70 0.75 0.75 rfl (by decide) rfl rfl).1⟩

/-- C4: a requested page pin not strictly greater than the maximum pin
already carried by an existing group is silently replaced by (maximum
existing pin + 1); requesting pins 1, 1, 2 for three successively added
groups therefore stores pins 1, 2, 3. -/
theorem c4_pin_monotonic :
    (∀ parts p, p ≤ maxExistingPage parts →
      bumpPin parts (some p) = some (maxExistingPage parts + 1)) ∧
    (addPartsSeq [] [("A", some 1), ("B", some 1), ("C", some 2)]).map
      (·.additional_page_number) = [some 1, some 2, some 3] := by
  refine ⟨fun parts p hp => ?_, by decide⟩
  simp [bumpPin, hp]

theorem c4_witness :
    1 ≤ maxExistingPage [⟨"A", [], some 1⟩] ∧
    bumpPin [⟨"A", [], some 1⟩] (some 1) =
      some (maxExistingPage [⟨"A", [], some 1⟩] + 1) :=
  ⟨by decide, c4_pin_monotonic.1 [⟨"A", [], some 1⟩] 1 (by decide)⟩

/-- C8: when the destination file exists and is held open exclusively by
another process, the save path raises the distinct file-locked error and
returns the filesystem untouched — in particular the pre-existing file
content at the destination is unchanged, since the error is raised by the
probe before anything is written. -/
theorem c8_locked_file (fs : FileSystem) (outP tmpP : String)
    (bytes0 wbBytes : List Nat)
    (hw : fs.dirWritable = true)
    (hex : lookupFile fs outP = some bytes0)
    (hl : isLocked fs outP = true) :
    generate_save fs outP tmpP wbBytes = (.error .fileLocked, fs) ∧
    lookupFile (generate_save fs outP tmpP wbBytes).2 outP = some bytes0 := by
  have h1 : generate_save fs outP tmpP wbBytes = (.error .fileLocked, fs) := by
    simp [generate_save, hw, hex, hl]
  exact ⟨h1, by rw [h1]; exact hex⟩

/-- A filesystem whose destination file is open in another process. -/
def c8FS : FileSystem :=
  { files := [("out.xlsx", [1, 2, 3])], locked := ["out.xlsx"], dirWritable := true }

theorem c8_witness :
    c8FS.dirWritable = true ∧
    lookupFile c8FS "out.xlsx" = some [1, 2, 3] ∧
    isLocked c8FS "out.xlsx" = true ∧
    generate_save c8FS "out.xlsx" "~out.xlsx.tmp" [9, 9] =
      (.error .fileLocked, c8FS) :=
  ⟨rfl, by decide, by decide,
    (c8_locked_file c8FS "out.xlsx" "~out.xlsx.tmp" [1, 2, 3] [9, 9]
      rfl (by decide) (by decide)).1⟩

/-- With the overflow flag latched, one step writes nothing: an active
group is appended to the deferred queue and an inactive one vanishes. -/
theorem fillStep_overflow (de : Nat) (s : FillState) (pc : PartChanges)
    (h : s.overflowStarted = true) :
    fillStep de s pc =
      if isActive pc then { s with remaining := s.remaining ++ [pc] } else s := by
  unfold fillStep
  cases hpin : pc.additional_page_number with
  | some p => simp
  | none =>
    cases hact : isActive pc with
    | true => simp [hact, h]
    | false => simp [hact]

/-- With the overflow flag latched, the rest of the queue contributes no
writes and is deferred (its active groups, in order). -/
theorem foldl_fillStep_overflow (de : Nat) (parts : List PartChanges)
    (s : FillState) (h : s.overflowStarted = true) :
    parts.foldl (fillStep de) s =
      { s with remaining := s.remaining ++ parts.filter isActive } := by
  induction parts generalizing s with
  | nil => simp
  | cons pc rest ih =>
    rw [List.foldl_cons, fillStep_overflow de s pc h]
    cases hact : isActive pc with
    | true =>
      rw [if_pos rfl, ih { s with remaining := s.remaining ++ [pc] } h]
      simp [List.filter_cons, hact]
    | false =>
      rw [if_neg (by simp [hact]), ih s h]
      simp [List.filter_cons, hact]

/-- C2: on the primary sheet, once an unpinned active group's rows needed
exceed the rows available, that group and every later active group of the
queue are deferred in original order, and not one further cell is written
on the primary sheet. -/
theorem c2_first_overflow_closes (dataStart dataEnd : Nat)
    (pre post : List PartChanges) (g : PartChanges)
    (hpin : g.additional_page_number = none) (hact : isActive g = true)
    (hov : (fill_changes_table dataStart dataEnd pre).overflowStarted = false)
    (hfit : 1 + ((max (before_materials g).length (after_materials g).length : Nat) : Int) >
      (dataEnd : Int) - ((fill_changes_table dataStart dataEnd pre).currentRow : Int) + 1) :
    (fill_changes_table dataStart dataEnd (pre ++ g :: post)).writes =
      (fill_changes_table dataStart dataEnd pre).writes ∧
    (fill_changes_table dataStart dataEnd (pre ++ g :: post)).remaining =
      (fill_changes_table dataStart dataEnd pre).remaining ++
        g :: post.filter isActive ∧
    (fill_changes_table dataStart dataEnd (pre ++ g :: post)).overflowStarted = true := by
  have hsplit : fill_changes_table dataStart dataEnd (pre ++ g :: post) =
      post.foldl (fillStep dataEnd)
        (fillStep dataEnd (fill_changes_table dataStart dataEnd pre) g) := by
    simp [fill_changes_table, List.foldl_append]
  have hg : fillStep dataEnd (fill_changes_table dataStart dataEnd pre) g =
      { fill_changes_table dataStart dataEnd pre with
          remaining := (fill_changes_table dataStart dataEnd pre).remaining ++ [g],
          overflowStarted := true } := by
    unfold fillStep
    rw [hpin]
    simp only [hact, Bool.not_true, Bool.false_eq_true, if_false, hov]
    rw [if_pos hfit]
  rw [hsplit, hg, foldl_fillStep_overflow _ _ _ rfl]
  simp

/-- A one-row page, a two-row group that cannot fit, and a later one-row
group that is nevertheless not back-filled. -/
def c2Mat : MaterialChange :=
  ⟨⟨"P", "ЗМУ", "краска", "before", "кг", 1⟩, true, some "after", none, none⟩

def c2Big : PartChanges := ⟨"BIG", [c2Mat, c2Mat], none⟩

def c2Small : PartChanges := ⟨"SMALL", [], none⟩

theorem c2_witness :
    isActive c2Big = true ∧
    (fill_changes_table 16 17 [c2Big, c2Small]).writes =
      (fill_changes_table 16 17 []).writes ∧
    (fill_changes_table 16 17 [c2Big, c2Small]).remaining =
      (fill_changes_table 16 17 []).remaining ++
        c2Big :: ([c2Small].filter isActive) ∧
    (fill_changes_table 16 17 [c2Big, c2Small]).overflowStarted = true :=
  ⟨by decide,
    c2_first_overflow_closes 16 17 [] [c2Small] c2Big rfl (by decide)
      (by decide) (by decide)⟩

/-- While the row limit is respected, the primary-sheet material loop
writes exactly the flattened rows, advances one row per index and leaves
nothing over. -/
theorem mainLoop_aux (de : Nat) (bm am : List MaterialChange) (r : Nat)
    (ws0 : List CellWrite) (k : Nat) (hk : ∀ i, i < k → r + 1 + i ≤ de) :
    (List.range k).foldl (mainMaterialStep de bm am)
        (r + 1, ws0, ([] : List MaterialChange)) =
      (r + 1 + k, ws0 ++ ((List.range k).map (rowWrites bm am r)).flatten, []) := by
  induction k with
  | zero => simp
  | succ k ih =>
    rw [List.range_succ, List.foldl_append,
      ih (fun i hi => hk i (Nat.lt_succ_of_lt hi))]
    have hrow : r + 1 + k ≤ de := hk k (Nat.lt_succ_self k)
    simp only [List.foldl_cons, List.foldl_nil, mainMaterialStep,
      List.map_append, List.map_cons, List.map_nil, List.flatten_append,
      List.flatten_cons, List.flatten_nil, List.append_nil]
    rw [if_neg (by omega)]
    cases hbk : bm[k]? <;> cases hak : am[k]? <;>
      simp [rowWrites, hbk, hak, List.append_assoc, Nat.add_right_comm] <;> omega

/-- When the whole group fits, the guarded primary-sheet writer produces
exactly the continuation-sheet writes with no leftover. -/
theorem writeGroupMain_fits (de r : Nat) (pc : PartChanges)
    (h : r + max (before_materials pc).length (after_materials pc).length ≤ de) :
    writeGroupMain de r pc =
      ((writeGroupAdd r pc).1, (writeGroupAdd r pc).2,
       ([] : List MaterialChange)) := by
  unfold writeGroupMain writeGroupAdd
  rw [mainLoop_aux de _ _ r _ _ (fun i hi => by omega)]

/-- Column analysis for one material-row write: it sits on row r+1+i, in
the before columns when the before side has index i, else in the after
columns. -/
theorem mem_rowWrites (bm am : List MaterialChange) (r i : Nat) (w : CellWrite)
    (hw : w ∈ rowWrites bm am r i) :
    w.row = r + 1 + i ∧
      ((i < bm.length ∧ (w.col = 1 ∨ w.col = 4 ∨ w.col = 5)) ∨
       (i < am.length ∧ (w.col = 7 ∨ w.col = 9 ∨ w.col = 10))) := by
  unfold rowWrites at hw
  rcases List.mem_append.1 hw with h1 | h1
  · cases hbk : bm[i]? with
    | none => rw [hbk] at h1; cases h1
    | some m =>
      rw [hbk] at h1
      have hi : i < bm.length := by
        by_contra hcon
        rw [List.getElem?_eq_none (by omega)] at hbk
        cases hbk
      simp [beforeRowWrites] at h1
      rcases h1 with h | h | h <;> subst h <;> simp [hi]
  · cases hak : am[i]? with
    | none => rw [hak] at h1; cases h1
    | some m =>
      rw [hak] at h1
      have hi : i < am.length := by
        by_contra hcon
        rw [List.getElem?_eq_none (by omega)] at hak
        cases hak
      unfold afterRowWrites at h1
      rcases List.mem_append.1 h1 with h2 | h2
      · simp at h2
        rcases h2 with h | h <;> subst h <;> simp [hi]
      · cases hnorm : m.after_norm with
        | none => rw [hnorm] at h2; cases h2
        | some q =>
          rw [hnorm] at h2
          simp at h2
          subst h2
          simp [hi]


/-- Decomposition of a group's writes: the two header cells or some
material-row write. -/
theorem mem_writeGroupAdd (r : Nat) (pc : PartChanges) (w : CellWrite)
    (hw : w ∈ (writeGroupAdd r pc).2) :
    w = ⟨r, 1, .str pc.part⟩ ∨ w = ⟨r, 7, .str pc.part⟩ ∨
    ∃ i, i < max (before_materials pc).length (after_materials pc).length ∧
      w ∈ rowWrites (before_materials pc) (after_materials pc) r i := by
  simp only [writeGroupAdd] at hw
  rcases List.mem_append.1 hw with h | h
  · simp at h
    tauto
  · rcases List.mem_flatten.1 h with ⟨l, hl, hwl⟩
    rcases List.mem_map.1 hl with ⟨i, hi, rfl⟩
    exact Or.inr (Or.inr ⟨i, List.mem_range.1 hi, hwl⟩)

/-- The rows a group occupies are exactly the header row and one row per
material index: the interval from `r` to `r + max b a`. -/
theorem writeGroupAdd_row_cover (r : Nat) (pc : PartChanges) (r2 : Nat) :
    (∃ w ∈ (writeGroupAdd r pc).2, w.row = r2) ↔
      (r ≤ r2 ∧ r2 ≤ r + max (before_materials pc).length (after_materials pc).length) := by
  constructor
  · rintro ⟨w, hw, rfl⟩
    rcases mem_writeGroupAdd r pc w hw with h | h | ⟨i, hi, hmem⟩
    · subst h
      exact ⟨Nat.le_refl r, Nat.le_add_right r _⟩
    · subst h
      exact ⟨Nat.le_refl r, Nat.le_add_right r _⟩
    · have := (mem_rowWrites _ _ _ _ _ hmem).1
      omega
  · rintro ⟨h1, h2⟩
    by_cases hr : r2 = r
    · subst hr
      exact ⟨⟨r2, 1, .str pc.part⟩, by simp [writeGroupAdd], rfl⟩
    · have hi2 : r + 1 ≤ r2 := by omega
      set i := r2 - r - 1 with hidef
      have hilt : i < max (before_materials pc).length (after_materials pc).length := by omega
      have hrow : r + 1 + i = r2 := by omega
      rcases Nat.lt_or_ge i (before_materials pc).length with hib | hib
      · refine ⟨⟨r + 1 + i, 1, .str (before_materials pc)[i].catalog_entry.before_name⟩, ?_, hrow⟩
        simp only [writeGroupAdd, List.mem_append, List.mem_flatten]
        refine Or.inr ⟨rowWrites (before_materials pc) (after_materials pc) r i,
          List.mem_map.2 ⟨i, List.mem_range.2 hilt, rfl⟩, ?_⟩
        unfold rowWrites
        rw [List.getElem?_eq_getElem hib]
        simp [beforeRowWrites]
      · have hia : i < (after_materials pc).length := by omega
        refine ⟨⟨r + 1 + i, 7, .str ((after_materials pc)[i].after_name.getD "")⟩, ?_, hrow⟩
        simp only [writeGroupAdd, List.mem_append, List.mem_flatten]
        refine Or.inr ⟨rowWrites (before_materials pc) (after_materials pc) r i,
          List.mem_map.2 ⟨i, List.mem_range.2 hilt, rfl⟩, ?_⟩
        unfold rowWrites
        rw [List.getElem?_eq_getElem hia]
        simp [afterRowWrites]

/-- Past the after side's last entry, a group row carries no write in the
after columns G, I, J. -/
theorem writeGroupAdd_after_blank (r : Nat) (pc : PartChanges) (i : Nat)
    (hi : (after_materials pc).length ≤ i) (w : CellWrite)
    (hw : w ∈ (writeGroupAdd r pc).2) (hrow : w.row = r + 1 + i) :
    ¬(w.col = 7 ∨ w.col = 9 ∨ w.col = 10) := by
  rcases mem_writeGroupAdd r pc w hw with h | h | ⟨j, hj, hmem⟩
  · subst h
    simp at hrow
    omega
  · subst h
    simp at hrow
    omega
  · rcases mem_rowWrites _ _ _ _ _ hmem with ⟨hr2, hcol⟩
    have hij : j = i := by omega
    subst hij
    rcases hcol with ⟨_, hc⟩ | ⟨hlen, _⟩
    · omega
    · omega

/-- Past the before side's last entry, a group row carries no write in the
before columns A, D, E. -/
theorem writeGroupAdd_before_blank (r : Nat) (pc : PartChanges) (i : Nat)
    (hi : (before_materials pc).length ≤ i) (w : CellWrite)
    (hw : w ∈ (writeGroupAdd r pc).2) (hrow : w.row = r + 1 + i) :
    ¬(w.col = 1 ∨ w.col = 4 ∨ w.col = 5) := by
  rcases mem_writeGroupAdd r pc w hw with h | h | ⟨j, hj, hmem⟩
  · subst h
    simp at hrow
    omega
  · subst h
    simp at hrow
    omega
  · rcases mem_rowWrites _ _ _ _ _ hmem with ⟨hr2, hcol⟩
    have hij : j = i := by omega
    subst hij
    rcases hcol with ⟨hlen, _⟩ | ⟨_, hc⟩
    · omega
    · omega

/-- C3: a group with `b` active before-rows and `a` active after-rows (not
both zero) that fits occupies exactly the `1 + max b a` consecutive rows
from its header row on: the part code is written into both halves of the
header row, every one of those rows is written, nothing below them is, and
the shorter side's columns stay blank past its last entry; a group with no
active rows is skipped without touching the sheet or the state. -/
theorem c3_group_rows (de : Nat) (s : FillState) (pc : PartChanges) (b a : Nat)
    (hb : (before_materials pc).length = b)
    (ha : (after_materials pc).length = a)
    (hpin : pc.additional_page_number = none)
    (hov : s.overflowStarted = false)
    (hne : ¬(b = 0 ∧ a = 0))
    (hfit : 1 + ((max b a : Nat) : Int) ≤ (de : Int) - (s.currentRow : Int) + 1) :
    (fillStep de s pc).currentRow = s.currentRow + 1 + max b a ∧
    (fillStep de s pc).writes = s.writes ++ (writeGroupAdd s.currentRow pc).2 ∧
    (fillStep de s pc).remaining = s.remaining ∧
    (⟨s.currentRow, 1, .str pc.part⟩ : CellWrite) ∈ (writeGroupAdd s.currentRow pc).2 ∧
    (⟨s.currentRow, 7, .str pc.part⟩ : CellWrite) ∈ (writeGroupAdd s.currentRow pc).2 ∧
    (∀ r2, (∃ w ∈ (writeGroupAdd s.currentRow pc).2, w.row = r2) ↔
      (s.currentRow ≤ r2 ∧ r2 ≤ s.currentRow + max b a)) ∧
    (∀ i, a ≤ i → ∀ w ∈ (writeGroupAdd s.currentRow pc).2,
      w.row = s.currentRow + 1 + i → ¬(w.col = 7 ∨ w.col = 9 ∨ w.col = 10)) ∧
    (∀ i, b ≤ i → ∀ w ∈ (writeGroupAdd s.currentRow pc).2,
      w.row = s.currentRow + 1 + i → ¬(w.col = 1 ∨ w.col = 4 ∨ w.col = 5)) ∧
    (∀ (s2 : FillState) (pc2 : PartChanges), (before_materials pc2).length = 0 →
      (after_materials pc2).length = 0 → fillStep de s2 pc2 = s2) := by
  have hmax : s.currentRow + max (before_materials pc).length (after_materials pc).length ≤ de := by
    rw [hb, ha]
    omega
  have hwrite := writeGroupMain_fits de s.currentRow pc hmax
  have hact : isActive pc = true := by
    rcases not_and_or.1 hne with h | h
    · have hne2 : before_materials pc ≠ [] := by
        intro he
        apply h
        rw [← hb, he]
        rfl
      simp [isActive, List.isEmpty_iff, hne2]
    · have hne2 : after_materials pc ≠ [] := by
        intro he
        apply h
        rw [← ha, he]
        rfl
      simp [isActive, List.isEmpty_iff, hne2]
  have hstep : fillStep de s pc =
      { s with currentRow := (writeGroupAdd s.currentRow pc).1,
               writes := s.writes ++ (writeGroupAdd s.currentRow pc).2 } := by
    unfold fillStep
    rw [hpin]
    simp only [hact, Bool.not_true, Bool.false_eq_true, if_false, hov]
    rw [if_neg (by rw [hb, ha]; omega)]
    rw [hwrite]
    simp
  have hfst : (writeGroupAdd s.currentRow pc).1 = s.currentRow + 1 + max b a := by
    simp [writeGroupAdd, hb, ha]
  refine ⟨by rw [hstep]; exact hfst, by rw [hstep], by rw [hstep], ?_, ?_, ?_, ?_, ?_, ?_⟩
  · simp [writeGroupAdd]
  · simp [writeGroupAdd]
  · intro r2
    rw [writeGroupAdd_row_cover, hb, ha]
  · intro i hi w hw hrow
    exact writeGroupAdd_after_blank s.currentRow pc i (by omega) w hw hrow
  · intro i hi w hw hrow
    exact writeGroupAdd_before_blank s.currentRow pc i (by omega) w hw hrow
  · intro s2 pc2 hb2 ha2
    have he1 : before_materials pc2 = [] := List.length_eq_zero.1 hb2
    have he2 : after_materials pc2 = [] := List.length_eq_zero.1 ha2
    unfold fillStep
    cases pc2.additional_page_number <;> simp [isActive, he1, he2]

/-- A group with three before rows and one after row, as in the spec's
worked example. -/
def c3MatA : MaterialChange :=
  ⟨⟨"P-100", "СУ", "краска", "bn1", "кг", 1⟩, true, some "x", none, none⟩

def c3MatB : MaterialChange :=
  ⟨⟨"P-100", "СУ", "краска", "bn2", "кг", 2⟩, true, none, none, none⟩

def c3Part : PartChanges := ⟨"P-100", [c3MatA, c3MatB, c3MatB], none⟩

def c3S : FillState := ⟨16, [], [], false⟩

theorem c3_witness :
    (before_materials c3Part).length = 3 ∧
    (after_materials c3Part).length = 1 ∧
    (fillStep 42 c3S c3Part).currentRow = c3S.currentRow + 1 + max 3 1 ∧
    (∀ i, 1 ≤ i → ∀ w ∈ (writeGroupAdd c3S.currentRow c3Part).2,
      w.row = c3S.currentRow + 1 + i → ¬(w.col = 7 ∨ w.col = 9 ∨ w.col = 10)) :=
  ⟨by decide, by decide,
    (c3_group_rows 42 c3S c3Part 3 1 (by decide) (by decide) rfl rfl
      (by decide) (by decide)).1,
    (c3_group_rows 42 c3S c3Part 3 1 (by decide) (by decide) rfl rfl
      (by decide) (by decide)).2.2.2.2.2.2.1⟩

/-- The claim's notion of the workshops of active rows, written from the
spec's words: a row is active if it is flagged changed (before side) or
has a non-empty after-name (after side). -/
def specActiveWorkshops (doc : DocumentData) : List String :=
  (doc.part_changes.foldr (fun pc acc =>
    (pc.materials.filter (fun m => m.is_changed || hasAfterName m)).map
      (fun m => m.catalog_entry.workshop) ++ acc) []).dedup

theorem mem_insertSorted (x y : String) (l : List String) :
    y ∈ insertSorted x l ↔ y = x ∨ y ∈ l := by
  induction l with
  | nil => simp [insertSorted]
  | cons z zs ih =>
    unfold insertSorted
    by_cases h : x ≤ z
    · simp [h]
    · simp [h, ih]
      tauto

theorem mem_sortStrings (x : String) (l : List String) :
    x ∈ sortStrings l ↔ x ∈ l := by
  induction l with
  | nil => simp [sortStrings]
  | cons z zs ih =>
    unfold sortStrings at ih ⊢
    rw [List.foldr_cons, mem_insertSorted, ih]
    simp

/-- Membership in `get_all_workshops`: exactly the workshops of materials
flagged changed. -/
theorem mem_get_all_workshops (doc : DocumentData) (w : String) :
    w ∈ get_all_workshops doc ↔
      ∃ pc ∈ doc.part_changes, ∃ m ∈ pc.materials,
        m.is_changed = true ∧ m.catalog_entry.workshop = w := by
  unfold get_all_workshops
  rw [mem_sortStrings, List.mem_dedup]
  induction doc.part_changes with
  | nil => simp
  | cons pc rest ih =>
    simp only [List.foldr_cons, List.mem_append, ih, List.mem_map,
      List.mem_filter, List.mem_cons]
    constructor
    · rintro (⟨m, ⟨hm, hch⟩, rfl⟩ | ⟨pc2, h2, m, hm, hch, hww⟩)
      · exact ⟨pc, Or.inl rfl, m, hm, hch, rfl⟩
      · exact ⟨pc2, Or.inr h2, m, hm, hch, hww⟩
    · rintro ⟨pc2, hpc2 | hpc2, m, hm, hch, hww⟩
      · subst hpc2
        exact Or.inl ⟨m, ⟨hm, hch⟩, hww⟩
      · exact Or.inr ⟨pc2, hpc2, m, hm, hch, hww⟩

/-- Closed form of the mark-writing fold of `fill_vruhcheno`: a cell holds
the mark precisely when it is the resolved mark cell of a found column of
some listed workshop; every other cell keeps its old value. -/
theorem vruhchenoFold_sets (ranges : List MergedRange)
    (cols : List (String × Nat)) (ws : List String) (content : SheetContent)
    (r2 c2 : Nat) :
    (ws.foldl (fun acc w =>
      match lookupCol cols w with
      | some c => setCell ranges acc 7 c (some (.str "х"))
      | none => acc) content) r2 c2 =
      (if ws.any (fun w =>
          match lookupCol cols w with
          | some c => decide ((r2, c2) = get_merged_target ranges 7 c)
          | none => false)
       then some (.str "х") else content r2 c2) := by
  induction ws generalizing content with
  | nil => simp
  | cons w rest ih =>
    rw [List.foldl_cons, List.any_cons]
    cases hl : lookupCol cols w with
    | none => simp only [hl, ih, Bool.false_or]
    | some c =>
      simp only [hl, ih]
      by_cases hrest : rest.any (fun w =>
          match lookupCol cols w with
          | some c => decide ((r2, c2) = get_merged_target ranges 7 c)
          | none => false)
      · simp [hrest]
      · simp only [hrest, if_false, Bool.or_false, Bool.false_eq_true]
        by_cases hc : (r2, c2) = get_merged_target ranges 7 c
        · simp [setCell, hc]
        · simp [setCell, hc]

/-- C9 (amended): when the workshop header scan finds columns, the
generated delivered-to block carries the mark exactly at the resolved mark
cells (row 7) of the found columns of workshops having a material flagged
changed — not of all active rows — and no other cell of the sheet is
touched by the block. -/
theorem c9_amended_marks (ops : TextOps) (cfg : List (String × Nat × Nat))
    (doc : DocumentData) (ms : MainSheet)
    (hcols : workshopColsScan ops ms ≠ []) (r2 c2 : Nat) :
    (fill_vruhcheno ops cfg doc ms).content r2 c2 =
      (if (get_all_workshops doc).any (fun w =>
          match lookupCol (workshopColsScan ops ms) w with
          | some c => decide ((r2, c2) = get_merged_target ms.ranges 7 c)
          | none => false)
       then some (.str "х") else ms.content r2 c2) ∧
    (∀ w, w ∈ get_all_workshops doc ↔
      ∃ pc ∈ doc.part_changes, ∃ m ∈ pc.materials,
        m.is_changed = true ∧ m.catalog_entry.workshop = w) := by
  constructor
  · rw [fill_vruhcheno]
    simp only [fill_vruhcheno_content]
    rw [if_neg (by simp [List.isEmpty_iff, hcols])]
    exact vruhchenoFold_sets ms.ranges (workshopColsScan ops ms)
      (get_all_workshops doc) ms.content r2 c2
  · intro w
    exact mem_get_all_workshops doc w

/-- Text operations where upper/lower are the identity (the concrete sheets
below carry their header text in canonical case already). -/
def idOps : TextOps := ⟨id, id, fun _ s => s, fun _ s => s⟩

/-- A plain geometry for concrete sheets (A4 portrait, no margins,
100 percent). -/
def plainGeom : SheetGeom :=
  { paperSize := some 9, orientVal := some "portrait", scale := some 100,
    marginTop := some 0, marginBottom := some 0,
    marginHeader := some 0.3, marginFooter := some 0.3,
    rowHeights := fun _ => none, defaultRowHeight := some 100, maxRow := 60 }

/-- A primary sheet whose row 6 carries the four workshop headers in
columns B..E. -/
def c9MS : MainSheet :=
  { content := fun r c =>
      if (r, c) = (6, 2) then some (.str "ПЗУ")
      else if (r, c) = (6, 3) then some (.str "ЗМУ")
      else if (r, c) = (6, 4) then some (.str "СУ")
      else if (r, c) = (6, 5) then some (.str "ОСУ")
      else none,
    ranges := [], geom := plainGeom, headerRow := some 13,
    rowHidden := fun _ => false, dimsPresent := fun _ => false }

/-- A material that is active through its after side only (not flagged
changed), in workshop ЗМУ. -/
def c9Mat : MaterialChange :=
  ⟨⟨"P", "ЗМУ", "краска", "bn", "кг", 1⟩, false, some "замена", none, none⟩

def c9Doc : DocumentData :=
  ⟨some 1, none, none, [], "", "", [⟨"P", [c9Mat], none⟩]⟩

/-- C9 is false as stated: workshop ЗМУ appears among the document's
active rows (its row has a non-empty after-name), its header column is
found (column 3), yet the generated mark block carries no mark for it. -/
theorem c9_counterexample :
    "ЗМУ" ∈ specActiveWorkshops c9Doc ∧
    lookupCol (workshopColsScan idOps c9MS) "ЗМУ" = some 3 ∧
    (fill_vruhcheno idOps [] c9Doc c9MS).content 7 3 = none := by
  refine ⟨by decide, by decide, ?_⟩
  decide

theorem c9_witness :
    workshopColsScan idOps c9MS ≠ [] ∧
    (fill_vruhcheno idOps [] c9Doc c9MS).content 7 3 =
      (if (get_all_workshops c9Doc).any (fun w =>
          match lookupCol (workshopColsScan idOps c9MS) w with
          | some c => decide (((7 : Nat), (3 : Nat)) = get_merged_target c9MS.ranges 7 c)
          | none => false)
       then some (.str "х") else c9MS.content 7 3) :=
  ⟨by decide, (c9_amended_marks idOps [] c9Doc c9MS (by decide) 7 3).1⟩

/-- The second component of a successful core run is the number-carrying
document it was given. -/
theorem generateCore_snd (ops : TextOps) (cfg : List (String × Nat × Nat))
    (today : String) (fuel : Nat) (docNum : Nat) (doc2 : DocumentData)
    (t : Template) (od : GenOutput × DocumentData)
    (hm : generateCore ops cfg today fuel docNum doc2 t = some od) :
    od.2 = doc2 := by
  simp only [generateCore] at hm
  split at hm
  · cases hm
  · cases hm
    rfl

/-- C7: generation is idempotent on the disk state — a second run with the
output and the (number-stamped) document of a first run reproduces that
run's output exactly: identical primary-sheet and continuation-sheet cell
contents and the identical visible/hidden sheet set, because every run
reloads the pristine template file and replaces the output file whole. -/
theorem c7_generate_idempotent (ops : TextOps) (cfg : List (String × Nat × Nat))
    (nextNumber : Option Nat → Nat) (today : String) (fuel : Nat)
    (d : Disk) (doc : DocumentData) :
    (generateToDisk ops cfg nextNumber today fuel d doc).bind
      (fun p => generateToDisk ops cfg nextNumber today fuel p.1 p.2) =
    generateToDisk ops cfg nextNumber today fuel d doc := by
  unfold generateToDisk
  cases hm : generateModel ops cfg nextNumber today fuel doc d.templateFile with
  | none => rfl
  | some od =>
    have hstable : generateModel ops cfg nextNumber today fuel od.2 d.templateFile = some od := by
      unfold generateModel at hm ⊢
      cases hdn : doc.document_number with
      | some n =>
        rw [hdn] at hm
        have hsnd := generateCore_snd ops cfg today fuel n
          { doc with document_number := some n } d.templateFile od hm
        rw [hsnd]
        exact hm
      | none =>
        rw [hdn] at hm
        set k := nextNumber (doc.implementation_date.map (·.year)) with hk
        have hsnd := generateCore_snd ops cfg today fuel k
          { doc with document_number := some k } d.templateFile od hm
        rw [hsnd]
        exact hm
    simp only [Option.some_bind]
    rw [hstable]

/-- Merged-cell resolution never moves a write downwards: the region's
top row is at or above the nominal row. -/
theorem get_merged_target_row_le (ranges : List MergedRange) (r c : Nat) :
    (get_merged_target ranges r c).1 ≤ r := by
  unfold get_merged_target
  cases hf : ranges.find? (fun mr =>
      mr.rMin ≤ r && r ≤ mr.rMax && mr.cMin ≤ c && c ≤ mr.cMax) with
  | none => simp
  | some mr =>
    have hp := List.find?_some hf
    simp only [Bool.and_eq_true, decide_eq_true_eq] at hp
    exact hp.1.1.1

/-- A write through a target at another row leaves a cell unchanged. -/
theorem setCell_frame (ranges : List MergedRange) (content : SheetContent)
    (r c : Nat) (v : Option CellVal) (r2 c2 : Nat)
    (h : (get_merged_target ranges r c).1 ≠ r2) :
    setCell ranges content r c v r2 c2 = content r2 c2 := by
  unfold setCell
  exact if_neg (fun he => h (congrArg Prod.fst he).symm)

/-- Folding steps that each leave a cell unchanged leaves it unchanged. -/
theorem foldl_content_frame {γ : Type} (f : SheetContent → γ → SheetContent)
    (r2 c2 : Nat)
    (hf : ∀ content x, f content x r2 c2 = content r2 c2)
    (l : List γ) (content : SheetContent) :
    l.foldl f content r2 c2 = content r2 c2 := by
  induction l generalizing content with
  | nil => rfl
  | cons x xs ih => rw [List.foldl_cons, ih (f content x)]; exact hf content x

/-- Folding steps that each leave a cell unchanged (for list members)
leaves it unchanged. -/
theorem foldl_content_frame_mem {γ : Type} (f : SheetContent → γ → SheetContent)
    (r2 c2 : Nat) (l : List γ)
    (hf : ∀ content, ∀ x ∈ l, f content x r2 c2 = content r2 c2)
    (content : SheetContent) :
    l.foldl f content r2 c2 = content r2 c2 := by
  induction l generalizing content with
  | nil => rfl
  | cons x xs ih =>
    rw [List.foldl_cons,
      ih (fun content2 y hy => hf content2 y (List.mem_cons_of_mem x hy)) (f content x)]
    exact hf content x (List.mem_cons_self x xs)

/-- `clear_template_data` touches no cell at row 43 or below: the table
clear stops before row 43 and the header clears sit in rows 7..11. -/
theorem clear_template_data_frame (ops : TextOps) (ms : MainSheet)
    (r2 c2 : Nat) (h43 : 43 ≤ r2) :
    (clear_template_data ops ms).content r2 c2 = ms.content r2 c2 := by
  have hset : ∀ (content : SheetContent) (r c : Nat) (v : Option CellVal), r ≤ 42 →
      setCell ms.ranges content r c v r2 c2 = content r2 c2 := by
    intro content r c v hr
    refine setCell_frame ms.ranges content r c v r2 c2 ?_
    have := get_merged_target_row_le ms.ranges r c
    omega
  have hcif : ∀ (content : SheetContent) (r c : Nat), r ≤ 42 →
      clearIfCell ms.ranges content r c r2 c2 = content r2 c2 := by
    intro content r c hr
    unfold clearIfCell
    split
    · exact hset content r c none hr
    · rfl
  rw [clear_template_data]
  simp only [clear_template_data_content]
  rw [hcif _ 10 8 (by omega), hcif _ 11 5 (by omega), hcif _ 11 2 (by omega),
    hcif _ 10 5 (by omega), hcif _ 10 2 (by omega), hcif _ 9 8 (by omega),
    hcif _ 9 5 (by omega)]
  rw [foldl_content_frame _ r2 c2 ?h7]
  case h7 =>
    intro content c
    cases hm : content (get_merged_target ms.ranges 7 c).1 (get_merged_target ms.ranges 7 c).2 with
    | none => rfl
    | some w =>
      simp only []
      by_cases hcond : (truthyCell (some w) &&
          (decide (ops.lower (pyStrip (cellText w)) = "х") ||
            decide (ops.lower (pyStrip (cellText w)) = "x"))) = true
      · rw [if_pos hcond]
        exact hset content 7 c none (by omega)
      · rw [if_neg hcond]
  refine foldl_content_frame_mem _ r2 c2 _ ?_ ms.content
  intro content r hr
  have hr42 : r ≤ 42 := by
    have := List.mem_range'_1.1 hr
    omega
  refine foldl_content_frame _ r2 c2 ?_ _ content
  intro content2 c
  by_cases hcond : (content2 (get_merged_target ms.ranges r c).1
      (get_merged_target ms.ranges r c).2).isSome = true
  · rw [if_pos hcond]
    exact hset content2 r c none hr42
  · rw [if_neg hcond]

/-- A header-line scan only ever reports targets resolved from its scan
row, which lie at or above it. -/
theorem scan_target_le (ranges : List MergedRange) (content : SheetContent)
    (p : CellVal → Bool) (row : Nat) (cols : List Nat) (tr tc : Nat) (text : String)
    (h : cols.findSome? (fun c =>
      let t := get_merged_target ranges row c
      match content t.1 t.2 with
      | none => none
      | some w => if p w then some (t.1, t.2, cellText w) else none) = some (tr, tc, text)) :
    tr ≤ row := by
  obtain ⟨c, hc, hfc⟩ := List.exists_of_findSome?_eq_some h
  simp only at hfc
  cases hw : content (get_merged_target ranges row c).1 (get_merged_target ranges row c).2 with
  | none => rw [hw] at hfc; cases hfc
  | some w =>
    rw [hw] at hfc
    simp only [] at hfc
    by_cases hp : p w = true
    · rw [if_pos hp] at hfc
      cases hfc
      exact get_merged_target_row_le ranges row c
    · rw [if_neg hp] at hfc
      cases hfc

/-- `fill_header` touches no cell at row 43 or below (its writes sit in
rows 5 and 9..11). -/
theorem fill_header_frame (ops : TextOps) (doc : DocumentData) (m : MainSheet)
    (r2 c2 : Nat) (h43 : 43 ≤ r2) :
    (fill_header ops doc m).content r2 c2 = m.content r2 c2 := by
  have hset : ∀ (content : SheetContent) (r c : Nat) (v : Option CellVal), r ≤ 42 →
      setCell m.ranges content r c v r2 c2 = content r2 c2 := by
    intro content r c v hr
    refine setCell_frame m.ranges content r c v r2 c2 ?_
    have := get_merged_target_row_le m.ranges r c
    omega
  have stepReason : ∀ content : SheetContent,
      (if doc.reason ≠ "" then
        setCell m.ranges (setCell m.ranges content 11 2 (some (.str "Причина:"))) 11 5
          (some (.str doc.reason))
       else content) r2 c2 = content r2 c2 := by
    intro content
    by_cases h5 : doc.reason ≠ ""
    · rw [if_pos h5, hset _ 11 5 _ (by omega), hset _ 11 2 _ (by omega)]
    · rw [if_neg h5]
  have stepProd : ∀ content : SheetContent,
      (if (!doc.products.isEmpty) = true then
        setCell m.ranges (setCell m.ranges content 10 2 (some (.str "Изделие:"))) 10 5
          (some (.str (String.intercalate ", " doc.products)))
       else content) r2 c2 = content r2 c2 := by
    intro content
    by_cases h4 : (!doc.products.isEmpty) = true
    · rw [if_pos h4, hset _ 10 5 _ (by omega), hset _ 10 2 _ (by omega)]
    · rw [if_neg h4]
  have stepVal : ∀ content : SheetContent,
      (match doc.validity_period with
       | some s => if s ≠ ""
           then setCell m.ranges content 9 8 (some (.str ("Срок действия: " ++ s)))
           else content
       | none => content) r2 c2 = content r2 c2 := by
    intro content
    cases doc.validity_period with
    | none => rfl
    | some s =>
      simp only []
      by_cases hs : s ≠ ""
      · rw [if_pos hs, hset _ 9 8 _ (by omega)]
      · rw [if_neg hs]
  have stepDate : ∀ content : SheetContent,
      (match doc.implementation_date with
       | some d => setCell m.ranges content 9 5 (some (.date d.year d.month d.day))
       | none => content) r2 c2 = content r2 c2 := by
    intro content
    cases doc.implementation_date with
    | none => rfl
    | some d => exact hset _ 9 5 _ (by omega)
  have stepScan :
      (match (List.range' 1 15).findSome? (fun c =>
          let t := get_merged_target m.ranges 5 c
          match m.content t.1 t.2 with
          | none => none
          | some w =>
            if truthyCell (some w) && containsSub "извещение" (ops.lower (cellText w))
            then some (t.1, t.2, cellText w) else none) with
       | some (tr, tc, text) =>
         if containsSub "№" text then
           (fun r c => if (r, c) = (tr, tc)
             then some (CellVal.str (ops.renumber (doc.document_number.getD 0) text))
             else m.content r c)
         else m.content
       | none => m.content) r2 c2 = m.content r2 c2 := by
    cases hscan : (List.range' 1 15).findSome? (fun c =>
        let t := get_merged_target m.ranges 5 c
        match m.content t.1 t.2 with
        | none => none
        | some w =>
          if truthyCell (some w) && containsSub "извещение" (ops.lower (cellText w))
          then some (t.1, t.2, cellText w) else none) with
    | none => rfl
    | some trip =>
      obtain ⟨tr, tc, text⟩ := trip
      have htr : tr ≤ 5 := scan_target_le m.ranges m.content
        (fun w => truthyCell (some w) && containsSub "извещение" (ops.lower (cellText w)))
        5 (List.range' 1 15) tr tc text hscan
      simp only []
      by_cases hnum : containsSub "№" text = true
      · rw [if_pos hnum]
        exact if_neg (fun he => by
          have := congrArg Prod.fst he
          simp at this
          omega)
      · rw [if_neg hnum]
  rw [fill_header]
  simp only [fill_header_content]
  rw [hset _ 10 8 _ (by omega), stepReason, stepProd, stepVal, stepDate]
  exact stepScan

/-- The configuration-fallback mark writes stay within the configured
rows. -/
theorem vruhchenoFallback_frame (cfg : List (String × Nat × Nat))
    (ws : List String) (content : SheetContent) (r2 c2 : Nat)
    (hcfg : ∀ e ∈ cfg, e.2.1 ≤ 42) (h43 : 43 ≤ r2) :
    vruhchenoFallback cfg ws content r2 c2 = content r2 c2 := by
  unfold vruhchenoFallback
  refine foldl_content_frame _ r2 c2 ?_ ws content
  intro content2 w
  cases hf : config_mapping.find? (fun p => p.1 = w) with
  | none => rfl
  | some pr =>
    simp only []
    cases hfs : pr.2.findSome? (fun a => (cfg.find? (fun q => q.1 = a)).map (·.2)) with
    | none => rfl
    | some rc =>
      obtain ⟨a, ha, hma⟩ := List.exists_of_findSome?_eq_some hfs
      cases hcf : cfg.find? (fun q => q.1 = a) with
      | none => rw [hcf] at hma; cases hma
      | some e =>
        rw [hcf] at hma
        simp at hma
        subst hma
        have he42 : e.2.1 ≤ 42 := hcfg e (List.mem_of_find?_eq_some hcf)
        exact if_neg (fun he => by
          have := congrArg Prod.fst he
          simp at this
          omega)

theorem fill_vruhcheno_geom (ops : TextOps) (cfg : List (String × Nat × Nat))
    (doc : DocumentData) (m : MainSheet) :
    (fill_vruhcheno ops cfg doc m).geom = m.geom := by
  rw [fill_vruhcheno]

theorem fill_vruhcheno_headerRow (ops : TextOps) (cfg : List (String × Nat × Nat))
    (doc : DocumentData) (m : MainSheet) :
    (fill_vruhcheno ops cfg doc m).headerRow = m.headerRow := by
  rw [fill_vruhcheno]

/-- `fill_vruhcheno` touches no cell at row 43 or below: the found-header
branch marks row 7, the fallback branch marks configured coordinates. -/
theorem fill_vruhcheno_frame (ops : TextOps) (cfg : List (String × Nat × Nat))
    (doc : DocumentData) (m : MainSheet) (r2 c2 : Nat)
    (hcfg : ∀ e ∈ cfg, e.2.1 ≤ 42) (h43 : 43 ≤ r2) :
    (fill_vruhcheno ops cfg doc m).content r2 c2 = m.content r2 c2 := by
  rw [fill_vruhcheno]
  simp only [fill_vruhcheno_content]
  by_cases hc : (workshopColsScan ops m).isEmpty = true
  · rw [if_pos hc]
    exact vruhchenoFallback_frame cfg (get_all_workshops doc) m.content r2 c2 hcfg h43
  · rw [if_neg hc]
    refine foldl_content_frame _ r2 c2 ?_ (get_all_workshops doc) m.content
    intro content2 w
    cases lookupCol (workshopColsScan ops m) w with
    | none => rfl
    | some c =>
      refine setCell_frame m.ranges content2 7 c _ r2 c2 ?_
      have := get_merged_target_row_le m.ranges 7 c
      omega

/-- The cumulative-height scan returns its initial best row or a scanned
row. -/
theorem fitScan_mem (g : SheetGeom) (cap : ℚ) (l : List Nat) (acc : ℚ) (best : Nat) :
    fitScan g cap l acc best = best ∨ fitScan g cap l acc best ∈ l := by
  induction l generalizing acc best with
  | nil => exact Or.inl rfl
  | cons r rest ih =>
    simp only [fitScan]
    split
    · rcases ih (acc + _row_height_points g r) r with h | h
      · right
        rw [h]
        exact List.mem_cons_self r rest
      · right
        exact List.mem_cons_of_mem r h
    · exact Or.inl rfl

/-- When the primary sheet's data start row is at most 42, so is its data
end row: the change table is bounded above by the physical table end 42. -/
theorem main_bounds_le42 (g : SheetGeom) (hr : Option Nat)
    (h : (_get_main_sheet_bounds g hr).1 ≤ 42) :
    (_get_main_sheet_bounds g hr).2.1 ≤ 42 := by
  cases hr with
  | none =>
    simp only [_get_main_sheet_bounds] at h ⊢
    rcases fitScan_mem g (_page_capacity_points g) (List.range' 16 (43 - 1 + 1 - 16))
        (sumHeights g 1 (16 - 1) + sumHeights g 43 g.maxRow) (16 - 1) with hm | hm
    · rw [hm]
      omega
    · have h3 := List.mem_range'_1.1 hm
      omega
  | some h2 =>
    simp only [_get_main_sheet_bounds] at h ⊢
    rcases fitScan_mem g (_page_capacity_points g)
        (List.range' (h2 + 3) (43 - 1 + 1 - (h2 + 3)))
        (sumHeights g 1 (h2 + 3 - 1) + sumHeights g 43 g.maxRow) (h2 + 3 - 1) with hm | hm
    · rw [hm]
      omega
    · have h3 := List.mem_range'_1.1 hm
      omega

/-- One group step only appends writes bounded by the data end row. -/
theorem fillStep_writes_le (de : Nat) (s : FillState) (pc : PartChanges)
    (w : CellWrite) (hw : w ∈ (fillStep de s pc).writes) :
    w ∈ s.writes ∨ w.row ≤ de := by
  unfold fillStep at hw
  cases hpin : pc.additional_page_number with
  | some p =>
    rw [hpin] at hw
    simp only [] at hw
    split at hw
    · exact Or.inl hw
    · exact Or.inl hw
  | none =>
    rw [hpin] at hw
    simp only [] at hw
    by_cases hact : (!isActive pc) = true
    · rw [if_pos hact] at hw
      exact Or.inl hw
    · rw [if_neg hact] at hw
      by_cases hov : s.overflowStarted = true
      · rw [if_pos hov] at hw
        exact Or.inl hw
      · rw [if_neg hov] at hw
        by_cases hfit : (1 + ((max (before_materials pc).length (after_materials pc).length : Nat) : Int) >
            (de : Int) - (s.currentRow : Int) + 1)
        · rw [if_pos hfit] at hw
          exact Or.inl hw
        · rw [if_neg hfit] at hw
          have hmax : s.currentRow + max (before_materials pc).length (after_materials pc).length ≤ de := by
            omega
          rw [writeGroupMain_fits de s.currentRow pc hmax] at hw
          simp only [] at hw
          rcases List.mem_append.1 hw with h | h
          · exact Or.inl h
          · right
            have hcover := (writeGroupAdd_row_cover s.currentRow pc w.row).1 ⟨w, h, rfl⟩
            omega

/-- Every write of the primary-sheet change table lands at or above the
data end row. -/
theorem foldl_fillStep_writes_le (de : Nat) (parts : List PartChanges) :
    ∀ (s : FillState) (w : CellWrite), w ∈ (parts.foldl (fillStep de) s).writes →
      w ∈ s.writes ∨ w.row ≤ de := by
  induction parts with
  | nil => exact fun s w hs => Or.inl hs
  | cons pc rest ih =>
    intro s w hs
    rcases ih (fillStep de s pc) w hs with h2 | h2
    · exact fillStep_writes_le de s pc w h2
    · exact Or.inr h2

theorem fill_writes_le (dataStart dataEnd : Nat) (parts : List PartChanges)
    (w : CellWrite) (hw : w ∈ (fill_changes_table dataStart dataEnd parts).writes) :
    w.row ≤ dataEnd := by
  unfold fill_changes_table at hw
  rcases foldl_fillStep_writes_le dataEnd parts ⟨dataStart, [], [], false⟩ w hw with h2 | h2
  · cases h2
  · exact h2

/-- Applying writes bounded by row 42 leaves rows 43 and below unchanged. -/
theorem applyWrites_frame (ranges : List MergedRange) (content : SheetContent)
    (ws : List CellWrite) (r2 c2 : Nat)
    (hws : ∀ w ∈ ws, w.row ≤ 42) (h43 : 43 ≤ r2) :
    applyWrites ranges content ws r2 c2 = content r2 c2 := by
  unfold applyWrites
  refine foldl_content_frame_mem _ r2 c2 ws ?_ content
  intro content2 w hw
  refine setCell_frame ranges content2 w.row w.col (some w.val) r2 c2 ?_
  have h1 := get_merged_target_row_le ranges w.row w.col
  have h2 := hws w hw
  omega

/-- Row compaction changes hiding and heights only, never a cell value. -/
theorem compact_content (ms : MainSheet) :
    (compact_empty_rows ms).content = ms.content := by
  simp only [compact_empty_rows]
  split <;> rfl

/-- C10: provided the computed data start row of the primary sheet is at
most 42 (and the configured fallback mark coordinates sit above row 43, as
the repository's template analyzer guarantees by scanning rows 1..14
only), generation never changes the value of any primary-sheet cell at row
43 or below: clearing stops before row 43, the change table is bounded by
a data end row of at most 42, the header and mark writes sit in rows 5..11,
and row compaction only hides rows 16..42. -/
theorem c10_manual_block (ops : TextOps) (cfg : List (String × Nat × Nat))
    (doc : DocumentData) (ms : MainSheet)
    (hstart : (_get_main_sheet_bounds ms.geom ms.headerRow).1 ≤ 42)
    (hcfg : ∀ e ∈ cfg, e.2.1 ≤ 42)
    (r2 c2 : Nat) (h43 : 43 ≤ r2) :
    (generateMainSheet ops cfg doc ms).1.content r2 c2 = ms.content r2 c2 := by
  simp only [generateMainSheet]
  rw [compact_content]
  simp only []
  have hg : (fill_vruhcheno ops cfg doc
      (fill_header ops doc (clear_template_data ops ms))).geom = ms.geom := by
    rw [fill_vruhcheno, fill_header, clear_template_data]
  have hh : (fill_vruhcheno ops cfg doc
      (fill_header ops doc (clear_template_data ops ms))).headerRow = ms.headerRow := by
    rw [fill_vruhcheno, fill_header, clear_template_data]
  rw [hg, hh]
  have hb2 : (_get_main_sheet_bounds ms.geom ms.headerRow).2.1 ≤ 42 :=
    main_bounds_le42 ms.geom ms.headerRow hstart
  have happ : ∀ (rs : List MergedRange) (content : SheetContent),
      applyWrites rs content
        (fill_changes_table (_get_main_sheet_bounds ms.geom ms.headerRow).1
          (_get_main_sheet_bounds ms.geom ms.headerRow).2.1 doc.part_changes).writes r2 c2 =
        content r2 c2 := by
    intro rs content
    refine applyWrites_frame rs content _ r2 c2 ?_ h43
    intro w hw
    exact le_trans (fill_writes_le _ _ _ w hw) hb2
  rw [happ]
  rw [fill_vruhcheno_frame ops cfg doc _ r2 c2 hcfg h43]
  rw [fill_header_frame ops doc _ r2 c2 h43]
  exact clear_template_data_frame ops ms r2 c2 h43

/-- A pristine primary sheet for the frame property. -/
def c10MS : MainSheet :=
  { content := fun _ _ => none, ranges := [], geom := plainGeom,
    headerRow := some 13, rowHidden := fun _ => false,
    dimsPresent := fun _ => false }

def c10Doc : DocumentData :=
  ⟨some 7, some ⟨2025, 3, 1⟩, some "партия 5", ["Насос-X"], "замена", "",
   [⟨"P-100", [c3MatA], none⟩]⟩

theorem c10_witness :
    (_get_main_sheet_bounds c10MS.geom c10MS.headerRow).1 ≤ 42 ∧
    (generateMainSheet idOps [] c10Doc c10MS).1.content 43 1 = c10MS.content 43 1 :=
  ⟨by decide,
    c10_manual_block idOps [] c10Doc c10MS (by decide) (by simp) 43 1 (by omega)⟩

/-! ## C6: a deferred group larger than any continuation page -/

/-- A single changed material row with no after side. -/
def c6Mat : MaterialChange :=
  ⟨⟨"P", "ЗМУ", "краска", "before", "кг", 1⟩, true, none, none, none⟩

/-- A group of 501 changed rows: 502 rows needed, while a continuation
page never offers more than 501. -/
def c6Big : PartChanges := ⟨"BIG", List.replicate 501 c6Mat, none⟩

theorem filter_replicate_pos {α : Type} (p : α → Bool) (a : α) (h : p a = true)
    (n : Nat) : (List.replicate n a).filter p = List.replicate n a := by
  induction n with
  | zero => rfl
  | succ k ih => simp [List.replicate_succ, List.filter_cons, h, ih]

theorem filter_replicate_neg {α : Type} (p : α → Bool) (a : α) (h : p a = false)
    (n : Nat) : (List.replicate n a).filter p = [] := by
  induction n with
  | zero => rfl
  | succ k ih => simp [List.replicate_succ, List.filter_cons, h, ih]

theorem c6_before : before_materials c6Big = List.replicate 501 c6Mat := by
  simp only [before_materials, c6Big]
  exact filter_replicate_pos _ _ rfl _

theorem c6_after : after_materials c6Big = [] := by
  simp only [after_materials, c6Big]
  exact filter_replicate_neg _ _ rfl _

/-- The continuation-sheet bounds scan stops at row 500, so the data
window of any continuation page spans at most 501 rows past its start. -/
theorem additional_bounds_span (g : SheetGeom) (hr : Option Nat) :
    (_get_additional_sheet_bounds g hr).2 ≤
      (_get_additional_sheet_bounds g hr).1 + 500 := by
  simp only [_get_additional_sheet_bounds]
  have hm : fitScan g (_page_capacity_points g)
      (List.range' 1 (min (max g.maxRow 200) 500)) 0 1 ≤ 500 := by
    rcases fitScan_mem g (_page_capacity_points g)
        (List.range' 1 (min (max g.maxRow 200) 500)) 0 1 with h | h
    · omega
    · have := List.mem_range'_1.mp h
      omega
  omega

theorem preparePage_span (ops : TextOps) (docNum : Nat) (today : String)
    (baseId : Option Nat) (wb : Workbook) (page : Nat) :
    (preparePage ops docNum today baseId wb page).2.2 ≤
      (preparePage ops docNum today baseId wb page).2.1 + 500 := by
  simp only [preparePage, boundsOf]
  exact additional_bounds_span _ _

/-- The too-big group never fits: the part loop writes nothing and carries
the whole queue over. -/
theorem writePartsLoop_c6 (de ds : Nat) (h : de ≤ ds + 500)
    (ws : List CellWrite) (n : Nat) :
    writePartsLoop de [c6Big] ds ws n = (ds, ws, n, [c6Big]) := by
  simp only [writePartsLoop, c6_before, c6_after]
  rw [if_neg, if_pos]
  · simp only [List.length_replicate, List.length_nil]
    omega
  · simp [List.isEmpty_iff]

theorem processPage1_c6 (ops : TextOps) (docNum : Nat) (today : String)
    (baseId : Option Nat) (wb : Workbook) (page : Nat) :
    (processPage1 ops docNum today baseId wb page [c6Big]).2 = (0, [c6Big]) := by
  simp only [processPage1]
  rw [writePartsLoop_c6 _ _ (preparePage_span ops docNum today baseId wb page)]

/-- Phase 1 diverges whenever its queue is exactly the too-big group: the
carry-over never shrinks, so no amount of fuel reaches the exit test. -/
theorem phase1_c6 (ops : TextOps) (docNum : Nat) (today : String)
    (baseId : Option Nat) (fuel : Nat) :
    ∀ (wb : Workbook) (pw co : List PartChanges) (page : Nat) (pwd : List Nat),
      co ++ pw = [c6Big] →
      phase1 ops docNum today baseId fuel wb pw co page pwd = none := by
  induction fuel with
  | zero => intro wb pw co page pwd _; rfl
  | succ n ih =>
    intro wb pw co page pwd h
    have hne : (pw.isEmpty && co.isEmpty) = false := by
      cases co with
      | nil =>
        cases pw with
        | nil => simp at h
        | cons a l => simp
      | cons a l => simp
    simp only [phase1]
    rw [if_neg (by rw [hne]; exact Bool.false_ne_true)]
    rw [h]
    have hp := processPage1_c6 ops docNum today baseId wb page
    have h1 : (processPage1 ops docNum today baseId wb page [c6Big]).2.1 = 0 := by
      rw [hp]
    have h2 : (processPage1 ops docNum today baseId wb page [c6Big]).2.2 = [c6Big] := by
      rw [hp]
    rw [h1, h2, if_neg (by omega)]
    exact ih _ [] [c6Big] (page + 1) pwd rfl

/-- C6 is refuted: a deferred group needing 502 rows — more than the at
most 501 rows any continuation page can offer — is not written partially
with generation completing; instead phase 1 of `handle_additional_sheets`
carries it over forever, and the fuelled model returns `none` (no output
document) for every fuel and every workbook. -/
theorem c6_nontermination (ops : TextOps) (docNum : Nat) (today : String)
    (fuel : Nat) (wb : Workbook) :
    handle_additional_sheets ops docNum today fuel wb [c6Big] = none := by
  have hact : isActive c6Big = true := by
    simp [isActive, c6_before]
  have hpn : c6Big.additional_page_number = none := rfl
  simp only [handle_additional_sheets, List.filter_cons, List.filter_nil, hact,
    if_true, hpn, Option.isNone_none, Option.isSome_none, if_false,
    List.isEmpty_cons, List.isEmpty_nil, Bool.false_and, Bool.and_true]
  rw [phase1_c6 ops docNum today _ fuel wb [c6Big] [] 1 [] rfl]
  simp


/-! ## C1: pins and continuation pages -/

/-- Continuation-sheet geometry for the pin counterexample: rows 1..8 one
point high, row 9 and beyond a thousand points, all page-setup attributes
left to the openpyxl defaults. -/
def c1Geom : SheetGeom :=
  ⟨none, none, none, none, none, none, none,
    fun r => if r ≤ 8 then some 1 else some 1000, none, 10⟩

/-- An empty continuation sheet with the given page number. -/
def c1Sheet (p : Nat) : AddSheet :=
  ⟨p, fun _ _ => none, [], c1Geom, none, false, fun _ => false⟩

/-- A workbook holding empty continuation sheets 1+, 2+ and 3+. -/
def c1WB : Workbook := ⟨[c1Sheet 1, c1Sheet 2, c1Sheet 3], c1Sheet 0⟩

def c1Mat : MaterialChange :=
  ⟨⟨"PIN3", "ЗМУ", "краска", "матер", "кг", 1⟩, true, none, none, none⟩

/-- One active group pinned to continuation page 3. -/
def c1Part : PartChanges := ⟨"PIN3", [c1Mat], some 3⟩

/-- The workbook produced by the generator on this input. -/
def c1Out : Workbook :=
  (handle_additional_sheets idOps 5 "01.01.2025" 9 c1WB [c1Part]).getD c1WB

set_option maxRecDepth 4000 in
theorem c1_bounds : _get_additional_sheet_bounds c1Geom none = (7, 8) := by
  norm_num [_get_additional_sheet_bounds, c1Geom, fitScan, _row_height_points,
    _page_capacity_points, _paper_height_inches, effectiveOrient, List.range']

theorem c1_sheet_empty (p : Nat) : is_sheet_empty (c1Sheet p) = true := by
  simp [is_sheet_empty, boundsOf, c1Sheet, c1_bounds, getCell,
    get_merged_target, cellHasData, List.range']

theorem c1Sheet_page (p : Nat) : (c1Sheet p).page = p := rfl

theorem c1_search : searchEmpty (some 1) c1WB 2 = (c1WB, some 2) := by
  rw [searchEmpty]
  simp [c1WB, getSheet, ensure_additional_sheet, getSheetD,
    List.find?_cons, c1Sheet_page, c1_sheet_empty]


theorem c1Sheet_geom (p : Nat) : (c1Sheet p).geom = c1Geom := rfl

theorem c1Sheet_headerRow (p : Nat) : (c1Sheet p).headerRow = none := rfl

theorem c1Sheet_ranges (p : Nat) : (c1Sheet p).ranges = [] := rfl

theorem c1Sheet_content (p : Nat) : (c1Sheet p).content = fun _ _ => none := rfl

theorem c1Sheet_visible (p : Nat) : (c1Sheet p).visible = false := rfl

theorem c1Sheet_rowHidden (p : Nat) : (c1Sheet p).rowHidden = fun _ => false := rfl

theorem c1Geom_maxRow : c1Geom.maxRow = 10 := rfl

theorem c1_norm_layout :
    _normalize_additional_sheet_layout (c1Sheet 2) (c1Sheet 1) = c1Sheet 2 := rfl


theorem _set_rows_hidden_page (s : AddSheet) (lo hi : Nat) (b : Bool) :
    (_set_rows_hidden s lo hi b).page = s.page := by
  rw [_set_rows_hidden]; split <;> rfl

theorem _set_rows_hidden_geom (s : AddSheet) (lo hi : Nat) (b : Bool) :
    (_set_rows_hidden s lo hi b).geom = s.geom := by
  rw [_set_rows_hidden]; split <;> rfl

theorem _set_rows_hidden_ranges (s : AddSheet) (lo hi : Nat) (b : Bool) :
    (_set_rows_hidden s lo hi b).ranges = s.ranges := by
  rw [_set_rows_hidden]; split <;> rfl

theorem clear_additional_sheet_data_page (s : AddSheet) :
    (clear_additional_sheet_data s).page = s.page := by
  rw [clear_additional_sheet_data]

theorem clear_additional_sheet_data_ranges (s : AddSheet) :
    (clear_additional_sheet_data s).ranges = s.ranges := by
  rw [clear_additional_sheet_data]

theorem fill_additional_sheet_header_page (ops : TextOps) (n : Nat)
    (t : String) (s : AddSheet) :
    (fill_additional_sheet_header ops n t s).page = s.page := by
  rw [fill_additional_sheet_header]

theorem fill_additional_sheet_header_ranges (ops : TextOps) (n : Nat)
    (t : String) (s : AddSheet) :
    (fill_additional_sheet_header ops n t s).ranges = s.ranges := by
  rw [fill_additional_sheet_header]

theorem c1_ensure2 : ensure_additional_sheet (some 1) c1WB 2 = c1WB := by
  simp [ensure_additional_sheet, getSheet, c1WB, c1Sheet_page]

theorem c1_getD1 : getSheetD c1WB 1 = c1Sheet 1 := by
  simp [getSheetD, getSheet, c1WB, c1Sheet_page]

theorem c1_getD2 : getSheetD c1WB 2 = c1Sheet 2 := by
  simp [getSheetD, getSheet, c1WB, c1Sheet_page]

theorem c1_boundsOf : boundsOf (c1Sheet 2) = (7, 8) := by
  rw [boundsOf, c1Sheet_geom, c1Sheet_headerRow]
  exact c1_bounds

theorem c1_max109 : max (10 : Nat) 9 = 10 := rfl

/-- The prepared continuation sheet 2+: layout untouched, printable rows
unhidden, the rest hidden, the data area cleared and the header
re-stamped. -/
def c1Prep : AddSheet :=
  fill_additional_sheet_header idOps 5 "01.01.2025"
    (clear_additional_sheet_data
      (_set_rows_hidden (_set_rows_hidden (c1Sheet 2) 1 8 false) 9 10 true))

theorem c1Prep_page : c1Prep.page = 2 := by
  rw [c1Prep, fill_additional_sheet_header_page, clear_additional_sheet_data_page,
    _set_rows_hidden_page, _set_rows_hidden_page, c1Sheet_page]

theorem c1Prep_ranges : c1Prep.ranges = [] := by
  rw [c1Prep, fill_additional_sheet_header_ranges,
    clear_additional_sheet_data_ranges, _set_rows_hidden_ranges,
    _set_rows_hidden_ranges, c1Sheet_ranges]

theorem c1_prep :
    preparePage idOps 5 "01.01.2025" (some 1) c1WB 2 =
      (putSheet c1WB c1Prep, 7, 8) := by
  simp [preparePage, c1_ensure2, c1_getD1, c1_getD2, c1_norm_layout,
    c1_boundsOf, _set_rows_hidden_geom, c1Sheet_geom, c1Geom_maxRow,
    c1_max109, c1Prep]

/-- The five cell writes of the pinned group on its page. -/
def c1Writes : List CellWrite :=
  [⟨7, 1, .str "PIN3"⟩, ⟨7, 7, .str "PIN3"⟩,
   ⟨8, 1, .str "матер"⟩, ⟨8, 4, .str "кг"⟩, ⟨8, 5, .num 1⟩]

theorem c1_loop :
    writePartsLoop2 8 [c1Part] [c1Part] 7 [] 0 = (9, c1Writes, 1, []) := by
  decide

theorem c1_put1 :
    putSheet c1WB c1Prep = ⟨[c1Sheet 1, c1Prep, c1Sheet 3], c1Sheet 0⟩ := by
  simp [putSheet, c1WB, c1Sheet_page, c1Prep_page]

theorem c1_getD_put : getSheetD (putSheet c1WB c1Prep) 2 = c1Prep := by
  simp [c1_put1, getSheetD, getSheet, c1Sheet_page, c1Prep_page]

/-- Sheet 2+ after the group is written onto it. -/
def c1Final : AddSheet :=
  { c1Prep with
      content := applyWrites c1Prep.ranges c1Prep.content c1Writes,
      visible := true }

theorem c1Final_page : c1Final.page = 2 := by
  rw [c1Final]; exact c1Prep_page

theorem c1_page2 :
    processPage2 idOps 5 "01.01.2025" (some 1) c1WB 2 [c1Part] =
      (putSheet (putSheet c1WB c1Prep) c1Final, 1, []) := by
  simp only [processPage2, c1_prep, c1_getD_put, c1_loop]
  simp [c1Final]

theorem c1_phase2 :
    phase2 idOps 5 "01.01.2025" (some 1) 9 c1WB [c1Part] 2 [] =
      some (putSheet (putSheet c1WB c1Prep) c1Final, [2]) := by
  simp [phase2, c1_page2]

/-- The closing visibility pass of `handle_additional_sheets`. -/
def setVisibility (wb : Workbook) (pages : List Nat) : Workbook :=
  { wb with addSheets := wb.addSheets.map (fun s =>
      { s with visible := decide (s.page ∈ pages) }) }

theorem c1_active : isActive c1Part = true := by decide

theorem c1Part_pin : c1Part.additional_page_number = some 3 := rfl

theorem c1_base : getSheet c1WB 1 = some (c1Sheet 1) := by
  simp [getSheet, c1WB, c1Sheet_page]

theorem c1_run :
    handle_additional_sheets idOps 5 "01.01.2025" 9 c1WB [c1Part] =
      some (setVisibility (putSheet (putSheet c1WB c1Prep) c1Final) [2]) := by
  simp [handle_additional_sheets, c1_active, c1Part_pin, c1_base,
    c1_search, c1_phase2, setVisibility]

theorem c1_put2 :
    putSheet (⟨[c1Sheet 1, c1Prep, c1Sheet 3], c1Sheet 0⟩ : Workbook) c1Final =
      ⟨[c1Sheet 1, c1Final, c1Sheet 3], c1Sheet 0⟩ := by
  simp [putSheet, c1Sheet_page, c1Prep_page, c1Final_page]

/-- C1 is false as stated: on a workbook with empty continuation sheets
1+, 2+ and 3+, the single group pinned to page 3 is written onto
continuation page 2 — the first empty sheet found from page 2 on — while
page 3 stays empty; the pin neither selects the target page nor bounds it
from below. -/
theorem c1_counterexample :
    c1Part.additional_page_number = some 3 ∧
    (handle_additional_sheets idOps 5 "01.01.2025" 9 c1WB [c1Part]).isSome
      = true ∧
    c1Out.addSheets.map (fun s => s.page) = [1, 2, 3] ∧
    getCell (getSheetD c1Out 2) 7 1 = some (CellVal.str "PIN3") ∧
    is_sheet_empty (getSheetD c1Out 3) = true := by
  have hout : c1Out = setVisibility
      (putSheet (putSheet c1WB c1Prep) c1Final) [2] := by
    rw [c1Out, c1_run]
    rfl
  refine ⟨rfl, ?_, ?_, ?_, ?_⟩
  · rw [c1_run]
    rfl
  · rw [hout, c1_put1, c1_put2]
    simp [setVisibility, c1Sheet_page, c1Final_page]
  · rw [hout, c1_put1, c1_put2]
    have hs : getSheetD (setVisibility
        (⟨[c1Sheet 1, c1Final, c1Sheet 3], c1Sheet 0⟩ : Workbook) [2]) 2 =
        { c1Final with visible := true } := by
      simp [setVisibility, getSheetD, getSheet, c1Sheet_page, c1Final_page]
    rw [hs]
    show getCell ({ c1Final with visible := true } : AddSheet) 7 1 = _
    have hrg : ({ c1Final with visible := true } : AddSheet).ranges = [] := by
      rw [c1Final]
      exact c1Prep_ranges
    have hct : ({ c1Final with visible := true } : AddSheet).content =
        applyWrites c1Prep.ranges c1Prep.content c1Writes := by
      rw [c1Final]
    rw [getCell, hrg, hct, c1Prep_ranges]
    simp [applyWrites, c1Writes, setCell, get_merged_target]
  · rw [hout, c1_put1, c1_put2]
    have hs : getSheetD (setVisibility
        (⟨[c1Sheet 1, c1Final, c1Sheet 3], c1Sheet 0⟩ : Workbook) [2]) 3 =
        { c1Sheet 3 with visible := false } := by
      simp [setVisibility, getSheetD, getSheet, c1Sheet_page, c1Final_page]
    rw [hs]
    simp [is_sheet_empty, boundsOf, c1_bounds, getCell, get_merged_target,
      cellHasData, c1Sheet_geom, c1Sheet_headerRow, c1Sheet_ranges,
      c1Sheet_content, List.range']


theorem foldl_maxPage_init (l : List AddSheet) (a : Nat) :
    a ≤ l.foldl (fun a s => max a s.page) a := by
  induction l generalizing a with
  | nil => exact Nat.le_refl a
  | cons s rest ih =>
    simp only [List.foldl_cons]
    exact Nat.le_trans (Nat.le_max_left a s.page) (ih _)

theorem foldl_maxPage_mem (l : List AddSheet) (s : AddSheet) (hs : s ∈ l) :
    ∀ a : Nat, s.page ≤ l.foldl (fun a t => max a t.page) a := by
  induction l with
  | nil => cases hs
  | cons t rest ih =>
    intro a
    simp only [List.foldl_cons]
    rcases List.mem_cons.mp hs with h | h
    · subst h
      exact Nat.le_trans (Nat.le_max_right a s.page) (foldl_maxPage_init rest _)
    · exact ih h _

theorem foldl_maxPage_put (l : List AddSheet) (s : AddSheet) :
    ∀ a : Nat,
      (l.map (fun t => if t.page = s.page then s else t)).foldl
          (fun a t => max a t.page) a =
        l.foldl (fun a t => max a t.page) a := by
  induction l with
  | nil => intro a; rfl
  | cons t rest ih =>
    intro a
    simp only [List.map_cons, List.foldl_cons]
    by_cases h : t.page = s.page
    · rw [if_pos h, h]
      exact ih _
    · rw [if_neg h]
      exact ih _

theorem maxPageNum_putSheet (wb : Workbook) (s : AddSheet) :
    maxPageNum (putSheet wb s) = maxPageNum wb := by
  simp only [maxPageNum, putSheet]
  exact foldl_maxPage_put _ _ _

/-- Ensuring a sheet of page `p` leaves a sheet of that page in the
workbook, so the page scan reaches at least `p`. -/
theorem le_maxPageNum_ensure (baseId : Option Nat) (wb : Workbook) (p : Nat) :
    p ≤ maxPageNum (ensure_additional_sheet baseId wb p) := by
  unfold ensure_additional_sheet
  split
  · rename_i h
    obtain ⟨s, hs⟩ := Option.isSome_iff_exists.mp h
    have hmem := List.mem_of_find?_eq_some hs
    have hpage : s.page = p := by
      have := List.find?_some hs
      simpa using this
    rw [maxPageNum, ← hpage]
    exact foldl_maxPage_mem _ s hmem 0
  · rw [maxPageNum]
    have hmem : ({ (match baseId with
          | some q => getSheetD wb q
          | none => wb.mainAsAdd) with page := p } : AddSheet) ∈
        wb.addSheets ++ [{ (match baseId with
          | some q => getSheetD wb q
          | none => wb.mainAsAdd) with page := p }] :=
      List.mem_append_right _ (List.mem_singleton.mpr rfl)
    exact foldl_maxPage_mem _ _ hmem 0

theorem le_maxPageNum_processPage2 (ops : TextOps) (docNum : Nat)
    (today : String) (baseId : Option Nat) (wb : Workbook) (page : Nat)
    (parts : List PartChanges) :
    page ≤ maxPageNum (processPage2 ops docNum today baseId wb page parts).1 := by
  simp only [processPage2, preparePage]
  rw [maxPageNum_putSheet, maxPageNum_putSheet]
  exact le_maxPageNum_ensure baseId wb page

/-- C1 (amended): phase 2 ignores the pin values entirely — every pinned
group is written by the first-empty-page search, so pages holding
phase-2 data are only guaranteed to be at or past page 2 (the start of
the search), not at or past the group's pin. -/
theorem c1_amended (ops : TextOps) (docNum : Nat) (today : String)
    (baseId : Option Nat) (fuel : Nat) :
    ∀ (wb : Workbook) (remaining : List PartChanges) (target : Nat)
      (pwd : List Nat) (res : Workbook × List Nat),
      2 ≤ target →
      phase2 ops docNum today baseId fuel wb remaining target pwd = some res →
      ∀ p ∈ res.2, p ∈ pwd ∨ 2 ≤ p := by
  induction fuel with
  | zero => intro wb remaining target pwd res ht h; cases h
  | succ n ih =>
    intro wb remaining target pwd res ht h
    simp only [phase2] at h
    by_cases hr : remaining.isEmpty
    · rw [if_pos hr] at h
      have := Option.some.inj h
      subst this
      intro p hp
      exact Or.inl hp
    · rw [if_neg hr] at h
      have hpwd2 : ∀ p ∈ (if (processPage2 ops docNum today baseId wb target
            remaining).2.1 > 0 then pwd ++ [target] else pwd),
          p ∈ pwd ∨ 2 ≤ p := by
        intro p hp
        split at hp
        · rcases List.mem_append.mp hp with h' | h'
          · exact Or.inl h'
          · right
            have := List.mem_singleton.mp h'
            omega
        · exact Or.inl hp
      split at h
      · intro p hp
        rcases ih _ _ target _ res ht h p hp with h' | h'
        · exact hpwd2 p h'
        · exact Or.inr h'
      · intro p hp
        have ht2 : 2 ≤ maxPageNum (processPage2 ops docNum today baseId wb
            target remaining).1 + 1 := by
          have := le_maxPageNum_processPage2 ops docNum today baseId wb
            target remaining
          omega
        rcases ih _ _ _ _ res ht2 h p hp with h' | h'
        · exact hpwd2 p h'
        · exact Or.inr h'

theorem c1_witness :
    (2 ≤ 2) ∧
      (phase2 idOps 5 "01.01.2025" (some 1) 1 c1WB [] 2 [2] =
        some (c1WB, [2])) ∧
      ∀ p ∈ [2], p ∈ [2] ∨ 2 ≤ p :=
  ⟨by decide, rfl,
    c1_amended idOps 5 "01.01.2025" (some 1) 1 c1WB [] 2 [2] (c1WB, [2])
      (by decide) rfl⟩


end OMTS
